import Mathlib

/-!
# go-wmi, package `virt/vm`: the virtual-machine manager

A shallow embedding of `virt/vm/vm.go`.  The package talks to the Hyper-V
management service through the `wmi` package, whose code is a collaborator of
this file: its operations are taken as the fields of an environment `Env`,
each a state transformer over an arbitrary world state `σ`.  Every
collaborator call made by the embedded code is appended to a trace, so that
statements such as "the associator walk is never performed" can be made about
the run.

Go conventions kept by the embedding:
* a function returning `(T, error)` returns a pair whose components may both be
  nil (`none`);
* `errors.Wrap` of package `github.com/pkg/errors` returns nil for a nil error;
* a failed type assertion `x.(T)` and a nil-pointer dereference panic.
-/

namespace GoWmi

/-! ## Values, errors, queries -/

/-- Dynamically typed Go value (`interface{}`), as passed to and returned by
the `wmi` package. -/
inductive Any where
  | null
  | int32 (n : Int)
  | str (s : String)
  | strs (l : List String)
  | variantPtr
  deriving DecidableEq, Repr

/-- Go `error` values: either a plain error (`fmt.Errorf`, or an error made by
the collaborator), or an error annotated by `errors.Wrap`, which keeps its
cause. -/
inductive Error where
  | errorf (text : String)
  | withMessage (cause : Error) (msg : String)
  deriving DecidableEq, Repr

/-- Function `errors.Wrap(err, message)`: nil for a nil `err`, otherwise `err` annotated
with the message. -/
def Wrap : Option Error → String → Option Error
  | none, _ => none
  | some err, message => some (.withMessage err message)

/-- Function `errors.Cause(err)`: the innermost error of a chain of annotations. -/
def Cause : Error → Error
  | .errorf t => .errorf t
  | .withMessage c _ => Cause c

/-- Function `strings.Join(elems, sep)` of the Go standard library. -/
def Join : List String → String → String
  | [], _ => ""
  | [a], _ => a
  | a :: b :: rest, sep => a ++ sep ++ Join (b :: rest) sep

/-- The comparison kinds of `wmi.QueryFields.Type`; only `wmi.Equals` is used
by this file. -/
inductive QueryType where
  | Equals
  deriving DecidableEq, Repr

/-- The `wmi.QueryFields` record. -/
structure QueryFields where
  Key : String
  Value : Any
  Type_ : QueryType
  deriving DecidableEq, Repr

/-- The `wmi.Query` values built by this file: `&wmi.AndQuery{...}`. -/
inductive Query where
  | AndQuery (f : QueryFields)
  deriving DecidableEq, Repr

/-- Constant `WMI_JOB_STATUS_STARTED` of `virt/vhd/constants.go`. -/
def WMI_JOB_STATUS_STARTED : Int := 4096

/-! ## The collaborator -/

/-- The environment of package `vm`: the constants it reads from elsewhere and
the operations of the `wmi` package and of the Go runtime it calls.  `σ` is the
state of the outside world, `C` the type `*wmi.WMI`, `R` the type
`*wmi.Result`, `L` the type `*wmi.Location`.  An operation returning
`(T, error)` yields `.error err` or `.ok value`; one returning `error` yields
`some err` or `none`.  `Get` also yields the values held, after the call, by
the `ole.VARIANT`s whose addresses were passed to it, in argument order.
`NumCPU` is the count answered by `runtime.NumCPU()`, `Value` the method
`(*wmi.Result).Value`. -/
structure Env (σ C R L : Type) where
  VirtualSystemSettingDataClass : String
  ComputerSystemClass : String
  VirtualSystemTypeRealized : String
  JobStatusStarted : Int
  NumCPU : Nat
  Gwmi : C → String → List String → List Query → σ → Except Error R × σ
  ConGet : C → String → σ → Except Error R × σ
  Get : R → String → List Any → σ → (Except Error R × List Any) × σ
  GetProperty : R → String → σ → Except Error R × σ
  Set : R → String → List Any → σ → Option Error × σ
  Value : R → Any
  Elements : R → σ → Except Error (List R) × σ
  ItemAtIndex : R → Int → σ → Except Error R × σ
  GetText : R → Int → σ → Except Error String × σ
  WaitForJob : String → σ → Option Error × σ
  NewLocation : String → σ → Except Error L × σ
  GetResult : L → σ → Except Error R × σ

/-- One collaborator call, with its arguments. -/
inductive Call (C R L : Type) where
  | Gwmi (c : C) (cls : String) (fields : List String) (q : List Query)
  | ConGet (c : C) (cls : String)
  | Get (r : R) (property : String) (params : List Any)
  | GetProperty (r : R) (property : String)
  | Set (r : R) (property : String) (params : List Any)
  | Elements (r : R)
  | ItemAtIndex (r : R) (i : Int)
  | GetText (r : R) (i : Int)
  | WaitForJob (path : String)
  | NewLocation (uri : String)
  | GetResult (l : L)
  deriving DecidableEq, Repr

/-- The state threaded through a run: the outside world and the calls made so
far, oldest first. -/
structure World (σ C R L : Type) where
  world : σ
  trace : List (Call C R L)

/-- How a Go function call ends: it returns, or it panics. -/
inductive Res (α : Type) where
  | val (a : α)
  | panic (msg : String)
  deriving DecidableEq, Repr

/-- Go computations over a state `S`. -/
def Go (S α : Type) : Type := S → Res α × S

/-- Return a value, leaving the state alone. -/
def Go.pure {S α : Type} (a : α) : Go S α := fun s => (.val a, s)

/-- Sequence two computations; a panic ends the run. -/
def Go.bind {S α β : Type} (m : Go S α) (f : α → Go S β) : Go S β := fun s =>
  match m s with
  | (.val a, s1) => f a s1
  | (.panic e, s1) => (.panic e, s1)

/-- A run-time panic. -/
def Go.panic {S α : Type} (msg : String) : Go S α := fun s => (.panic msg, s)

instance {S : Type} : Monad (Go S) where
  pure := Go.pure
  bind := Go.bind

/-- Perform a collaborator call: log it, run it on the world. -/
def call {σ C R L α : Type} (c : Call C R L) (f : σ → α × σ) : Go (World σ C R L) α :=
  fun s => (.val (f s.world).1, ⟨(f s.world).2, s.trace ++ [c]⟩)

/-- The type assertion `x.(int32)`. -/
def assertInt32 {S : Type} : Any → Go S Int
  | .int32 n => Go.pure n
  | _ => Go.panic "interface conversion: not int32"

/-- The type assertion `x.(string)`. -/
def assertString {S : Type} : Any → Go S String
  | .str s => Go.pure s
  | _ => Go.panic "interface conversion: not string"

section Traced

variable {σ C R L : Type}

/-- Traced `(*wmi.WMI).Gwmi`. -/
def Env.gwmi (E : Env σ C R L) (c : C) (cls : String) (fields : List String) (q : List Query) :
    Go (World σ C R L) (Except Error R) :=
  call (.Gwmi c cls fields q) (E.Gwmi c cls fields q)

/-- Traced `(*wmi.WMI).Get`. -/
def Env.conGet (E : Env σ C R L) (c : C) (cls : String) : Go (World σ C R L) (Except Error R) :=
  call (.ConGet c cls) (E.ConGet c cls)

/-- Traced `(*wmi.Result).Get`. -/
def Env.get (E : Env σ C R L) (r : R) (property : String) (params : List Any) :
    Go (World σ C R L) (Except Error R × List Any) :=
  call (.Get r property params) (E.Get r property params)

/-- Traced `(*wmi.Result).GetProperty`. -/
def Env.getProperty (E : Env σ C R L) (r : R) (property : String) :
    Go (World σ C R L) (Except Error R) :=
  call (.GetProperty r property) (E.GetProperty r property)

/-- Traced `(*wmi.Result).Set`. -/
def Env.set (E : Env σ C R L) (r : R) (property : String) (params : List Any) :
    Go (World σ C R L) (Option Error) :=
  call (.Set r property params) (E.Set r property params)

/-- Traced `(*wmi.Result).Elements`. -/
def Env.elements (E : Env σ C R L) (r : R) : Go (World σ C R L) (Except Error (List R)) :=
  call (.Elements r) (E.Elements r)

/-- Traced `(*wmi.Result).ItemAtIndex`. -/
def Env.itemAtIndex (E : Env σ C R L) (r : R) (i : Int) : Go (World σ C R L) (Except Error R) :=
  call (.ItemAtIndex r i) (E.ItemAtIndex r i)

/-- Traced `(*wmi.Result).GetText`. -/
def Env.getText (E : Env σ C R L) (r : R) (i : Int) : Go (World σ C R L) (Except Error String) :=
  call (.GetText r i) (E.GetText r i)

/-- Traced `wmi.WaitForJob`. -/
def Env.waitForJob (E : Env σ C R L) (path : String) : Go (World σ C R L) (Option Error) :=
  call (.WaitForJob path) (E.WaitForJob path)

/-- Traced `wmi.NewLocation`. -/
def Env.newLocation (E : Env σ C R L) (uri : String) : Go (World σ C R L) (Except Error L) :=
  call (.NewLocation uri) (E.NewLocation uri)

/-- Traced `(*wmi.Location).GetResult`. -/
def Env.getResult (E : Env σ C R L) (l : L) : Go (World σ C R L) (Except Error R) :=
  call (.GetResult l) (E.GetResult l)

end Traced

/-! ## Package `vm` -/

/-- The `Manager` struct. -/
structure Manager (C R : Type) where
  con : C
  svc : R
  deriving DecidableEq, Repr

/-- The `VirtualMachine` struct. -/
structure VirtualMachine (C R : Type) where
  mgr : Manager C R
  activeSettingsData : R
  computerSystem : R
  deriving DecidableEq, Repr

section Vm

variable {σ C R L : Type}

/-- Method `(*Manager).GetVM`: the pair `(*VirtualMachine, error)` it returns. -/
def Manager.GetVM (E : Env σ C R L) (m : Manager C R) (instanceID : String) :
    Go (World σ C R L) (Option (VirtualMachine C R) × Option Error) := do
  let fields : List String := []
  let qParams : List Query := [
    .AndQuery ⟨"VirtualSystemType", .str E.VirtualSystemTypeRealized, .Equals⟩,
    .AndQuery ⟨"VirtualSystemIdentifier", .str instanceID, .Equals⟩]
  match ← E.gwmi m.con E.VirtualSystemSettingDataClass fields qParams with
  | .error err => pure (none, Wrap (some err) "VirtualSystemSettingDataClass")
  | .ok result =>
  match ← E.itemAtIndex result 0 with
  | .error err => pure (none, Wrap (some err) "fetching element")
  | .ok vssd =>
  match ← E.get vssd "associators_" [.null, .str E.ComputerSystemClass] with
  | (.error err, _) => pure (none, Wrap (some err) "getting ComputerSystemClass")
  | (.ok cs, _) =>
  match ← E.elements cs with
  | .error err => pure (none, Wrap (some err) "getting elements")
  -- err == nil from here on: the test `err != nil || len(elem) == 0`
  | .ok [] => pure (none, Wrap none "getting elements")
  | .ok (elem0 :: _) => pure (some ⟨m, vssd, elem0⟩, none)

/-- The body of the `for idx, val := range elements` loop of `ListVM`, over the
remaining `(idx, val)` pairs, with `vms` the slice filled so far; it ends with
the function's `return vms, nil`. -/
def Manager.ListVM.loop (E : Env σ C R L) (m : Manager C R) :
    List (Nat × R) → List (Option (VirtualMachine C R)) →
    Go (World σ C R L) (Option (List (Option (VirtualMachine C R))) × Option Error)
  | [], vms => pure (some vms, none)
  | (idx, val) :: rest, vms => do
    match ← E.get val "associators_" [.null, .str E.ComputerSystemClass] with
    | (.error err, _) => pure (none, Wrap (some err) "getting ComputerSystemClass")
    | (.ok cs, _) =>
    match ← E.elements cs with
    | .error err => pure (none, Wrap (some err) "getting elements")
    | .ok [] => pure (none, Wrap none "getting elements")
    | .ok (elem0 :: _) => Manager.ListVM.loop E m rest (vms.set idx (some ⟨m, val, elem0⟩))

/-- Method `(*Manager).ListVM`: the pair `([]*VirtualMachine, error)` it returns; a
nil slice is `none`. -/
def Manager.ListVM (E : Env σ C R L) (m : Manager C R) :
    Go (World σ C R L) (Option (List (Option (VirtualMachine C R))) × Option Error) := do
  let fields : List String := []
  let qParams : List Query := [
    .AndQuery ⟨"VirtualSystemType", .str E.VirtualSystemTypeRealized, .Equals⟩]
  match ← E.gwmi m.con E.VirtualSystemSettingDataClass fields qParams with
  | .error err => pure (none, Wrap (some err) "VirtualSystemSettingDataClass")
  | .ok result =>
  match ← E.elements result with
  | .error err => pure (none, Wrap (some err) "Elements")
  | .ok elements =>
  Manager.ListVM.loop E m elements.enum (List.replicate elements.length none)

/-- Method `(*VirtualMachine).SetMemory`; the receiver may be nil. -/
def VirtualMachine.SetMemory (_v : Option (VirtualMachine C R)) (_memoryMB : Int) : Option Error :=
  none

/-- Method `(*VirtualMachine).SetNumCPUs`; the receiver may be nil, `runtime.NumCPU()`
is `E.NumCPU`. -/
def VirtualMachine.SetNumCPUs (E : Env σ C R L) (_v : Option (VirtualMachine C R)) (cpus : Int) :
    Option Error :=
  let hostCpus : Int := E.NumCPU
  if hostCpus < cpus then
    some (.errorf "Number of cpus exceeded available host resources")
  else none

/-- Method `(*VirtualMachine).AttachDisks`. -/
def VirtualMachine.AttachDisks (_v : Option (VirtualMachine C R)) (_disks : List String) :
    Option Error :=
  none

/-- Method `(*VirtualMachine).Name`: the pair `(string, error)`; a nil receiver is
dereferenced. -/
def VirtualMachine.Name (E : Env σ C R L) (v : Option (VirtualMachine C R)) :
    Go (World σ C R L) (String × Option Error) :=
  match v with
  | none => Go.panic "invalid memory address or nil pointer dereference"
  | some v => do
    match ← E.getProperty v.computerSystem "ElementName" with
    | .error err => pure ("", Wrap (some err) "getting ElementName")
    | .ok name =>
    let s ← assertString (E.Value name)
    pure (s, none)

/-- Method `(*VirtualMachine).ID`: the pair `(string, error)`; a nil receiver is
dereferenced. -/
def VirtualMachine.ID (E : Env σ C R L) (v : Option (VirtualMachine C R)) :
    Go (World σ C R L) (String × Option Error) :=
  match v with
  | none => Go.panic "invalid memory address or nil pointer dereference"
  | some v => do
    match ← E.getProperty v.activeSettingsData "VirtualSystemIdentifier" with
    | .error err => pure ("", Wrap (some err) "fetching VM ID")
    | .ok id =>
    let s ← assertString (E.Value id)
    pure (s, none)

/-- Method `(*Manager).CreateVM`: the pair `(*VirtualMachine, error)`.  A nil `notes`
slice is the empty list; `GenerationType` is a string type. -/
def Manager.CreateVM (E : Env σ C R L) (m : Manager C R) (name : String) (memoryMB : Int)
    (cpus : Int) (_limitCPUFeatures : Bool) (notes : List String) (generation : String) :
    Go (World σ C R L) (Option (VirtualMachine C R) × Option Error) := do
  match ← E.conGet m.con E.VirtualSystemSettingDataClass with
  | .error err => pure (none, some err)
  | .ok vmSettingsDataInstance =>
  match ← E.get vmSettingsDataInstance "SpawnInstance_" [] with
  | (.error err, _) => pure (none, Wrap (some err) "calling SpawnInstance_")
  | (.ok newVMInstance, _) =>
  match ← E.set newVMInstance "ElementName" [.str name] with
  | some err => pure (none, Wrap (some err) "Set ElementName")
  | none =>
  match ← E.set newVMInstance "VirtualSystemSubType" [.str generation] with
  | some err => pure (none, Wrap (some err) "Set VirtualSystemSubType")
  | none =>
  match ← (if notes.length > 0 then
      E.set newVMInstance "Notes" [.strs [Join notes "\n"]]
    else pure none) with
  | some err => pure (none, Wrap (some err) "Set Notes")
  | none =>
  match ← E.getText newVMInstance 1 with
  | .error err => pure (none, Wrap (some err) "Failed to get VM instance XML")
  | .ok vmText =>
  match ← E.get m.svc "DefineSystem" [.str vmText, .null, .null, .variantPtr, .variantPtr] with
  | (.error err, _) => pure (none, Wrap (some err) "calling DefineSystem")
  | (.ok jobState, outs) =>
  let resultingSystem := outs.getD 0 .null
  let jobPath := outs.getD 1 .null
  let state ← assertInt32 (E.Value jobState)
  match ← (if state = E.JobStatusStarted then do
      let path ← assertString jobPath
      E.waitForJob path
    else pure none) with
  | some err => pure (none, Wrap (some err) "waiting for job")
  | none =>
  let locationURI ← assertString resultingSystem
  match ← E.newLocation locationURI with
  | .error err => pure (none, Wrap (some err) "getting location")
  | .ok loc =>
  match ← E.getResult loc with
  | .error err => pure (none, Wrap (some err) "getting result")
  | .ok result =>
  match ← E.getProperty result "Name" with
  | .error err => pure (none, Wrap (some err) "fetching VM ID")
  | .ok id =>
  let instanceID ← assertString (E.Value id)
  match ← Manager.GetVM E m instanceID with
  | (_, some err) => pure (none, Wrap (some err) "fetching VM")
  | (vm, none) =>
  match VirtualMachine.SetMemory vm memoryMB with
  | some err => pure (none, Wrap (some err) "setting memory limit")
  | none =>
  match VirtualMachine.SetNumCPUs E vm cpus with
  | some err => pure (none, Wrap (some err) "setting CPU limit")
  | none => pure (vm, none)

/-- The two filters of the settings-data query of `GetVM`. -/
def getVMQuery (E : Env σ C R L) (instanceID : String) : List Query := [
  .AndQuery ⟨"VirtualSystemType", .str E.VirtualSystemTypeRealized, .Equals⟩,
  .AndQuery ⟨"VirtualSystemIdentifier", .str instanceID, .Equals⟩]

/-- The calls a run makes from state `s`: what it appends to the trace. -/
def callsOf {α : Type} (run : Go (World σ C R L) α) (s : World σ C R L) :
    List (Call C R L) :=
  (run s).2.trace.drop s.trace.length

/-- The value `CreateVM` assigns to the "Notes" field for a non-empty `notes`. -/
def joinedNotes (notes : List String) : List Any :=
  [.strs [Join notes "\n"]]

/-- The steps of `CreateVM` up to and including `DefineSystem` all succeed from
world `w0`: the class template `tmpl` is obtained, the instance `inst` is
spawned, its fields are set, its text form is `vmText`, and `DefineSystem`
answers the status object `jobState` and the out-parameters `outs`, leaving
the world `w7`. -/
def DefineSucceeds (E : Env σ C R L) (m : Manager C R) (name : String) (notes : List String)
    (generation : String) (w0 : σ) (tmpl inst : R) (vmText : String) (jobState : R)
    (outs : List Any) (w7 : σ) : Prop :=
  ∃ (w1 w2 w3 w4 w5 w6 : σ) (o2 : List Any),
    E.ConGet m.con E.VirtualSystemSettingDataClass w0 = (.ok tmpl, w1) ∧
    E.Get tmpl "SpawnInstance_" [] w1 = ((.ok inst, o2), w2) ∧
    E.Set inst "ElementName" [.str name] w2 = (none, w3) ∧
    E.Set inst "VirtualSystemSubType" [.str generation] w3 = (none, w4) ∧
    (if notes.length > 0 then E.Set inst "Notes" (joinedNotes notes) w4 = (none, w5)
      else w5 = w4) ∧
    E.GetText inst 1 w5 = (.ok vmText, w6) ∧
    E.Get m.svc "DefineSystem" [.str vmText, .null, .null, .variantPtr, .variantPtr] w6
      = ((.ok jobState, outs), w7)

/-- The calls `CreateVM` makes up to and including `DefineSystem` when they all
succeed. -/
def defineCalls (E : Env σ C R L) (m : Manager C R) (name : String) (notes : List String)
    (generation : String) (tmpl inst : R) (vmText : String) : List (Call C R L) :=
  [.ConGet m.con E.VirtualSystemSettingDataClass,
   .Get tmpl "SpawnInstance_" [],
   .Set inst "ElementName" [.str name],
   .Set inst "VirtualSystemSubType" [.str generation]] ++
  (if notes.length > 0 then [.Set inst "Notes" (joinedNotes notes)] else []) ++
  [.GetText inst 1,
   .Get m.svc "DefineSystem" [.str vmText, .null, .null, .variantPtr, .variantPtr]]

/-- Every call made by the computation satisfies `P`, whatever the state it
starts from. -/
def Emits {α : Type} (P : Call C R L → Prop) (m : Go (World σ C R L) α) : Prop :=
  ∀ s, ∃ l, (m s).2.trace = s.trace ++ l ∧ ∀ c ∈ l, P c

/-- The calls of an entity lookup: the query, the element fetch, the associator
walk and the enumeration of a result set. -/
def Call.IsLookup : Call C R L → Prop
  | .Gwmi _ _ _ _ => True
  | .ItemAtIndex _ _ => True
  | .Get _ property _ => property = "associators_"
  | .Elements _ => True
  | _ => False

/-- The calls of the steps of `CreateVM` that follow the job step: resolving the
locator, reading the identifier, and the entity lookup. -/
def Call.IsResolve : Call C R L → Prop
  | .NewLocation _ => True
  | .GetResult _ => True
  | .GetProperty _ _ => True
  | c => c.IsLookup

/-- Is the call an assignment to the field `property`? -/
def Call.isSetOf (property : String) : Call C R L → Bool
  | .Set _ p _ => p == property
  | _ => false

/-- The job step of `CreateVM` succeeds from world `w7`, leaving `w8`: for the
status "started" the job path is the string `path` and waiting for it reports
no error; for any other status nothing is done. -/
def JobSucceeds (E : Env σ C R L) (st : Int) (outs : List Any) (path : String) (w7 w8 : σ) :
    Prop :=
  if st = E.JobStatusStarted then
    outs.getD 1 .null = .str path ∧ E.WaitForJob path w7 = (none, w8)
  else w8 = w7

/-- The calls of the job step when it succeeds. -/
def jobCalls (E : Env σ C R L) (st : Int) (path : String) : List (Call C R L) :=
  if st = E.JobStatusStarted then [.WaitForJob path] else []

/-- Resolving the result of `DefineSystem` succeeds from world `w8`: the
resulting system is the locator string `loc`, it resolves to the object `res`,
and the "Name" property of `res` is the string `id`. -/
def ResolveSucceeds (E : Env σ C R L) (outs : List Any) (w8 : σ) (loc : String) (l : L)
    (res : R) (id : String) (w11 : σ) : Prop :=
  ∃ (w9 w10 : σ) (idr : R),
    outs.getD 0 .null = .str loc ∧
    E.NewLocation loc w8 = (.ok l, w9) ∧
    E.GetResult l w9 = (.ok res, w10) ∧
    E.GetProperty res "Name" w10 = (.ok idr, w11) ∧
    E.Value idr = .str id

/-- The calls of a successful resolution. -/
def resolveCalls (loc : String) (l : L) (res : R) : List (Call C R L) :=
  [.NewLocation loc, .GetResult l, .GetProperty res "Name"]

/-- The entity lookup of `GetVM(id)` succeeds from world `w11`, leaving `w15`:
the query answers `result`, whose element 0 is `vssd`, whose associator walk
answers `cs`, whose first element is `elem0`. -/
def LookupSucceeds (E : Env σ C R L) (m : Manager C R) (id : String) (w11 : σ)
    (result vssd cs elem0 : R) (w15 : σ) : Prop :=
  ∃ (w12 w13 w14 : σ) (o : List Any) (rest : List R),
    E.Gwmi m.con E.VirtualSystemSettingDataClass [] (getVMQuery E id) w11 = (.ok result, w12) ∧
    E.ItemAtIndex result 0 w12 = (.ok vssd, w13) ∧
    E.Get vssd "associators_" [.null, .str E.ComputerSystemClass] w13 = ((.ok cs, o), w14) ∧
    E.Elements cs w14 = (.ok (elem0 :: rest), w15)

/-- The calls of a successful entity lookup. -/
def lookupCalls (E : Env σ C R L) (m : Manager C R) (id : String) (result vssd cs : R) :
    List (Call C R L) :=
  [.Gwmi m.con E.VirtualSystemSettingDataClass [] (getVMQuery E id),
   .ItemAtIndex result 0,
   .Get vssd "associators_" [.null, .str E.ComputerSystemClass],
   .Elements cs]

/-- Every value the computation returns satisfies `Q`, whatever the state it
starts from. -/
def Yields {α : Type} (Q : α → Prop) (m : Go (World σ C R L) α) : Prop :=
  ∀ s a, (m s).1 = .val a → Q a

/-- The filter of the settings-data query of `ListVM`. -/
def listVMQuery (E : Env σ C R L) : List Query := [
  .AndQuery ⟨"VirtualSystemType", .str E.VirtualSystemTypeRealized, .Equals⟩]

/-- The computation only reads the world: from any world, its result does not
depend on the calls made before it, and it leaves the world as it found it. -/
def ReadOnly {α : Type} (m : Go (World σ C R L) α) : Prop :=
  ∀ w tr1 tr2, (m ⟨w, tr1⟩).1 = (m ⟨w, tr2⟩).1 ∧ (m ⟨w, tr1⟩).2.world = w

end Vm

/-! ## A fake management service

An in-memory stand-in for the `wmi` package, used to run the embedded code on
concrete inputs.  Its state lists the realized virtual machines in query order
and scripts the answers of `DefineSystem` and of the job wait. -/

/-- One virtual machine held by the fake service: its identifier, its display
name, and how many computer systems its settings data is associated to. -/
structure FakeVM where
  id : String
  name : String
  systems : Nat
  deriving DecidableEq, Repr

/-- State of the fake service. -/
structure FakeWorld where
  vms : List FakeVM
  draftName : String
  draftNotes : List String
  status : Int
  jobErr : Option Error
  newID : String
  deriving DecidableEq, Repr

/-- Handles given out by the fake service. -/
inductive FakeRef where
  | cls (name : String)
  | draft
  | svc
  | settings (i : Nat)
  | system (i : Nat)
  | coll (items : List FakeRef)
  | prim (v : Any)
  deriving Repr

/-- Does machine `vm` pass the filters of a query? -/
def fakeMatches (q : List Query) (vm : FakeVM) : Bool :=
  q.all fun
    | .AndQuery f =>
      if f.Key = "VirtualSystemIdentifier" then decide (f.Value = .str vm.id) else true

/-- The fake `Get`: associator walks, instance spawning and `DefineSystem`. -/
def fakeGet (r : FakeRef) (property : String) (params : List Any) (w : FakeWorld) :
    (Except Error FakeRef × List Any) × FakeWorld :=
  match r, params with
  | .settings i, _ =>
    if property = "associators_" then
      match w.vms.get? i with
      | some vm => ((.ok (.coll (List.replicate vm.systems (.system i))), []), w)
      | none => ((.error (.errorf "invalid object"), []), w)
    else ((.error (.errorf "unknown member"), []), w)
  | .cls _, _ =>
    if property = "SpawnInstance_" then
      ((.ok .draft, []), { w with draftName := "", draftNotes := [] })
    else ((.error (.errorf "unknown member"), []), w)
  | .svc, .str text :: _ =>
    if property = "DefineSystem" then
      ((.ok (.prim (.int32 w.status)), [.str w.newID, .str "job-1"]),
        { w with vms := w.vms ++ [⟨w.newID, text, 1⟩] })
    else ((.error (.errorf "unknown member"), []), w)
  | _, _ => ((.error (.errorf "unknown member"), []), w)

/-- The fake `GetProperty`. -/
def fakeGetProperty (r : FakeRef) (property : String) (w : FakeWorld) :
    Except Error FakeRef × FakeWorld :=
  match r with
  | .settings i =>
    match w.vms.get? i with
    | some vm =>
      if property = "VirtualSystemIdentifier" then (.ok (.prim (.str vm.id)), w)
      else if property = "ElementName" then (.ok (.prim (.str vm.name)), w)
      else (.error (.errorf "unknown property"), w)
    | none => (.error (.errorf "invalid object"), w)
  | .system i =>
    match w.vms.get? i with
    | some vm =>
      if property = "Name" then (.ok (.prim (.str vm.id)), w)
      else if property = "ElementName" then (.ok (.prim (.str vm.name)), w)
      else (.error (.errorf "unknown property"), w)
    | none => (.error (.errorf "invalid object"), w)
  | _ => (.error (.errorf "unknown property"), w)

/-- The fake `Set`: only the spawned instance is writable. -/
def fakeSet (r : FakeRef) (property : String) (params : List Any) (w : FakeWorld) :
    Option Error × FakeWorld :=
  match r, params with
  | .draft, [.str s] =>
    if property = "ElementName" then (none, { w with draftName := s }) else (none, w)
  | .draft, [.strs l] =>
    if property = "Notes" then (none, { w with draftNotes := l }) else (none, w)
  | _, _ => (some (.errorf "read-only object"), w)

/-- The fake environment on a host with `numCPU` logical processors.  The text
form of the spawned instance is its display name, and a locator is the
identifier of the machine it points at. -/
def fakeEnv (numCPU : Nat) : Env FakeWorld Unit FakeRef String where
  VirtualSystemSettingDataClass := "Msvm_VirtualSystemSettingData"
  ComputerSystemClass := "Msvm_ComputerSystem"
  VirtualSystemTypeRealized := "Microsoft:Hyper-V:System:Realized"
  JobStatusStarted := WMI_JOB_STATUS_STARTED
  NumCPU := numCPU
  Gwmi := fun _ _ _ q w =>
    (.ok (.coll (((w.vms.enum).filter fun p => fakeMatches q p.2).map fun p => .settings p.1)), w)
  ConGet := fun _ cls w => (.ok (.cls cls), w)
  Get := fakeGet
  GetProperty := fakeGetProperty
  Set := fakeSet
  Value := fun r => match r with | .prim v => v | _ => .null
  Elements := fun r w =>
    match r with
    | .coll items => (.ok items, w)
    | _ => (.error (.errorf "not a collection"), w)
  ItemAtIndex := fun r i w =>
    match r with
    | .coll items =>
      match items.get? i.toNat with
      | some x => (.ok x, w)
      | none => (.error (.errorf "index out of range"), w)
    | _ => (.error (.errorf "not a collection"), w)
  GetText := fun r _ w =>
    match r with
    | .draft => (.ok w.draftName, w)
    | _ => (.error (.errorf "no text form"), w)
  WaitForJob := fun _ w => (w.jobErr, w)
  NewLocation := fun uri w => (.ok uri, w)
  GetResult := fun l w =>
    match w.vms.findIdx? (fun vm => vm.id = l) with
    | some i => (.ok (.system i), w)
    | none => (.error (.errorf "object not found"), w)

/-- The fake world reached from `fakeStart [] status jobErr "VM-123"` once
`CreateVM("test", ...)` has had the machine defined. -/
def fakeDefined (status : Int) (jobErr : Option Error) : FakeWorld :=
  ⟨[⟨"VM-123", "test", 1⟩], "test", [], status, jobErr, "VM-123"⟩

/-- A fake environment whose query ignores its filters: it answers the settings
data of every machine it holds, in order. -/
def fakeEnvLoose (numCPU : Nat) : Env FakeWorld Unit FakeRef String :=
  { fakeEnv numCPU with
    Gwmi := fun _ _ _ _ w => (.ok (.coll ((w.vms.enum).map fun p => .settings p.1)), w) }

/-- The manager of the fake service. -/
def fakeMgr : Manager Unit FakeRef := ⟨(), .svc⟩

/-- A fake world holding the machines `vms`, whose `DefineSystem` answers
`status` and names the new machine `newID`, and whose job wait answers
`jobErr`; no call has been made yet. -/
def fakeStart (vms : List FakeVM) (status : Int) (jobErr : Option Error) (newID : String) :
    World FakeWorld Unit FakeRef String :=
  ⟨⟨vms, "", [], status, jobErr, newID⟩, []⟩

/-! ## Theorems -/

section Theorems

variable {σ C R L : Type}

/-! ### Running a computation step by step -/

theorem Go.bind_call {α β : Type} (c : Call C R L) (f : σ → α × σ)
    (k : α → Go (World σ C R L) β) (s : World σ C R L) :
    Go.bind (call c f) k s = k (f s.world).1 ⟨(f s.world).2, s.trace ++ [c]⟩ := rfl

theorem Go.bind_pure {S α β : Type} (a : α) (k : α → Go S β) (s : S) :
    Go.bind (Go.pure a) k s = k a s := rfl

theorem Go.pure_apply {S α : Type} (a : α) (s : S) : Go.pure a s = (.val a, s) := rfl

theorem Go.bind_ite {S α β : Type} (c : Prop) [Decidable c] (a b : Go S α) (k : α → Go S β)
    (s : S) :
    Go.bind (if c then a else b) k s = if c then Go.bind a k s else Go.bind b k s := by
  split <;> rfl

theorem Go.bind_assoc {S α β γ : Type} (m : Go S α) (f : α → Go S β) (g : β → Go S γ) (s : S) :
    Go.bind (Go.bind m f) g s = Go.bind m (fun a => Go.bind (f a) g) s := by
  cases h : m s with
  | mk r s1 => cases r <;> simp [Go.bind, h]

/-! ### What a computation may call -/

theorem emits_pure {α : Type} (P : Call C R L → Prop) (a : α) :
    Emits P (Go.pure a : Go (World σ C R L) α) :=
  fun s => ⟨[], by simp [Go.pure], by simp⟩

theorem emits_panic {α : Type} (P : Call C R L → Prop) (e : String) :
    Emits P (Go.panic e : Go (World σ C R L) α) :=
  fun s => ⟨[], by simp [Go.panic], by simp⟩

theorem emits_call {α : Type} (P : Call C R L → Prop) (c : Call C R L) (f : σ → α × σ)
    (h : P c) : Emits P (call c f : Go (World σ C R L) α) :=
  fun s => ⟨[c], by simp [GoWmi.call], by simpa using h⟩

theorem emits_bind {α β : Type} {P : Call C R L → Prop} {m : Go (World σ C R L) α}
    {f : α → Go (World σ C R L) β} (hm : Emits P m) (hf : ∀ a, Emits P (f a)) :
    Emits P (Go.bind m f) := by
  intro s
  obtain ⟨l, hl, hP⟩ := hm s
  cases h : m s with
  | mk r s1 =>
    rw [h] at hl
    cases r with
    | val a =>
      obtain ⟨l2, hl2, hP2⟩ := hf a s1
      refine ⟨l ++ l2, ?_, ?_⟩
      · simp only [Go.bind, h, hl2]
        simp only [] at hl
        rw [hl, List.append_assoc]
      · intro c hc
        rcases List.mem_append.1 hc with hc | hc
        · exact hP c hc
        · exact hP2 c hc
    | panic e =>
      refine ⟨l, ?_, hP⟩
      simp only [Go.bind, h]
      exact hl

theorem emits_assertString (P : Call C R L → Prop) (v : Any) :
    Emits P (assertString v : Go (World σ C R L) String) := by
  cases v <;> first | exact emits_pure P _ | exact emits_panic P _

theorem emits_mono {α : Type} {P Q : Call C R L → Prop} {m : Go (World σ C R L) α}
    (hm : Emits P m) (h : ∀ c, P c → Q c) : Emits Q m := fun s =>
  let ⟨l, hl, hP⟩ := hm s
  ⟨l, hl, fun c hc => h c (hP c hc)⟩

/-- An entity lookup makes lookup calls only. -/
theorem GetVM_emits (E : Env σ C R L) (m : Manager C R) (instanceID : String) :
    Emits Call.IsLookup (Manager.GetVM E m instanceID) := by
  simp only [Manager.GetVM, Bind.bind, Pure.pure, Env.gwmi, Env.itemAtIndex, Env.get,
    Env.elements]
  repeat' first
    | with_reducible exact emits_pure _ _
    | (with_reducible refine emits_call _ _ _ ?_) <;> simp [Call.IsLookup]
    | with_reducible apply emits_bind
    | split
    | intro _

theorem Go.bind_assertString_str {S β : Type} (x : String) (k : String → Go S β) (s : S) :
    Go.bind (assertString (.str x)) k s = k x s := rfl

theorem Go.bind_assertInt32_int32 {S β : Type} (x : Int) (k : Int → Go S β) (s : S) :
    Go.bind (assertInt32 (.int32 x)) k s = k x s := rfl

/-- The notes step of `CreateVM`, when it succeeds. -/
theorem notes_step {β : Type} (E : Env σ C R L) (inst : R) (notes : List String) (w4 w5 : σ)
    (h5 : if notes.length > 0 then E.Set inst "Notes" (joinedNotes notes) w4 = (none, w5)
      else w5 = w4)
    (k : Option Error → Go (World σ C R L) β) (tr : List (Call C R L)) :
    Go.bind (if notes.length > 0 then
        call (.Set inst "Notes" [.strs [Join notes "\n"]])
          (E.Set inst "Notes" [.strs [Join notes "\n"]])
      else Go.pure none) k ⟨w4, tr⟩ =
    k none ⟨w5, tr ++ (if notes.length > 0 then [.Set inst "Notes" (joinedNotes notes)]
      else [])⟩ := by
  by_cases hn : notes.length > 0
  · simp only [hn, if_true, joinedNotes] at h5
    simp only [hn, if_true, Go.bind_call, h5, joinedNotes]
  · simp only [hn, if_false] at h5
    subst h5
    simp only [hn, if_false, Go.bind_pure, List.append_nil]

/-- A run started in a state whose last calls are `pre` makes `pre` followed by
calls that all satisfy `P`. -/
theorem emits_calls_of {α : Type} {P : Call C R L → Prop} {m : Go (World σ C R L) α}
    (hm : Emits P m) (s0 : World σ C R L) (n : Nat) (pre : List (Call C R L))
    (hn : n ≤ s0.trace.length) (h : s0.trace.drop n = pre) :
    ∃ l, (m s0).2.trace.drop n = pre ++ l ∧ ∀ c ∈ l, P c := by
  obtain ⟨l, hl, hP⟩ := hm s0
  refine ⟨l, ?_, hP⟩
  rw [hl, List.drop_append_of_le_length hn, h]

/-- Once `DefineSystem` has answered a status other than "started", `CreateVM`
makes resolve calls only. -/
theorem CreateVM_calls_not_started (E : Env σ C R L) (m : Manager C R) (name : String)
    (memoryMB cpus : Int) (limitCPUFeatures : Bool) (notes : List String) (generation : String)
    (s : World σ C R L) (tmpl inst jobState : R) (vmText : String) (outs : List Any) (w7 : σ)
    (st : Int)
    (hpre : DefineSucceeds E m name notes generation s.world tmpl inst vmText jobState outs w7)
    (hst : E.Value jobState = .int32 st) (hs : st ≠ E.JobStatusStarted) :
    ∃ l, callsOf (Manager.CreateVM E m name memoryMB cpus limitCPUFeatures notes generation) s =
        defineCalls E m name notes generation tmpl inst vmText ++ l ∧
      ∀ c ∈ l, Call.IsResolve c := by
  obtain ⟨w1, w2, w3, w4, w5, w6, o2, h1, h2, h3, h4, h5, h6, h7⟩ := hpre
  simp only [Manager.CreateVM, Bind.bind, Pure.pure,
    Env.conGet, Env.get, Env.set, Env.getText, Env.waitForJob,
    callsOf, Go.bind_call, Go.bind_pure, notes_step E inst notes w4 w5 h5,
    Go.bind_assertInt32_int32, h1, h2, h3, h4, h6, h7, hst, hs, if_false]
  refine emits_calls_of ?_ _ _ _ (by simp) (by simp [defineCalls])
  simp only [VirtualMachine.SetMemory, VirtualMachine.SetNumCPUs, Env.newLocation,
    Env.getResult, Env.getProperty]
  repeat' first
    | with_reducible exact emits_pure _ _
    | with_reducible exact emits_assertString _ _
    | (with_reducible refine emits_call _ _ _ ?_) <;> simp [Call.IsResolve]
    | (with_reducible refine emits_mono (GetVM_emits E m _) ?_) <;>
        (intro c hc; cases c <;> simp_all [Call.IsResolve, Call.IsLookup])
    | with_reducible apply emits_bind
    | split
    | intro _

/-- Once `DefineSystem` has answered the status "started" and the job path
`path`, `CreateVM` waits for that job and then makes resolve calls only. -/
theorem CreateVM_calls_started (E : Env σ C R L) (m : Manager C R) (name : String)
    (memoryMB cpus : Int) (limitCPUFeatures : Bool) (notes : List String) (generation : String)
    (s : World σ C R L) (tmpl inst jobState : R) (vmText : String) (outs : List Any) (w7 : σ)
    (path : String)
    (hpre : DefineSucceeds E m name notes generation s.world tmpl inst vmText jobState outs w7)
    (hst : E.Value jobState = .int32 E.JobStatusStarted)
    (hpath : outs.getD 1 .null = .str path) :
    ∃ l, callsOf (Manager.CreateVM E m name memoryMB cpus limitCPUFeatures notes generation) s =
        (defineCalls E m name notes generation tmpl inst vmText ++ [.WaitForJob path]) ++ l ∧
      ∀ c ∈ l, Call.IsResolve c := by
  obtain ⟨w1, w2, w3, w4, w5, w6, o2, h1, h2, h3, h4, h5, h6, h7⟩ := hpre
  simp only [Manager.CreateVM, Bind.bind, Pure.pure,
    Env.conGet, Env.get, Env.set, Env.getText, Env.waitForJob,
    callsOf, Go.bind_call, Go.bind_pure, notes_step E inst notes w4 w5 h5, Go.bind_assoc,
    Go.bind_assertInt32_int32, Go.bind_assertString_str, h1, h2, h3, h4, h6, h7, hst, hpath,
    if_true]
  refine emits_calls_of ?_ _ _ _ (by simp) (by simp [defineCalls])
  simp only [VirtualMachine.SetMemory, VirtualMachine.SetNumCPUs, Env.newLocation,
    Env.getResult, Env.getProperty]
  repeat' first
    | with_reducible exact emits_pure _ _
    | with_reducible exact emits_assertString _ _
    | (with_reducible refine emits_call _ _ _ ?_) <;> simp [Call.IsResolve]
    | (with_reducible refine emits_mono (GetVM_emits E m _) ?_) <;>
        (intro c hc; cases c <;> simp_all [Call.IsResolve, Call.IsLookup])
    | with_reducible apply emits_bind
    | split
    | intro _

/-- On the fake service holding no machine, the steps of `CreateVM("test", ...,
nil notes)` up to `DefineSystem` succeed, whatever the scripted status and job
outcome. -/
theorem fake_define_succeeds (status : Int) (jobErr : Option Error) :
    DefineSucceeds (fakeEnv 4) fakeMgr "test" [] "gen"
      (fakeStart [] status jobErr "VM-123").world
      (.cls "Msvm_VirtualSystemSettingData") .draft "test" (.prim (.int32 status))
      [.str "VM-123", .str "job-1"]
      ⟨[⟨"VM-123", "test", 1⟩], "test", [], status, jobErr, "VM-123"⟩ :=
  ⟨⟨[], "", [], status, jobErr, "VM-123"⟩, ⟨[], "", [], status, jobErr, "VM-123"⟩,
   ⟨[], "test", [], status, jobErr, "VM-123"⟩, ⟨[], "test", [], status, jobErr, "VM-123"⟩,
   ⟨[], "test", [], status, jobErr, "VM-123"⟩, ⟨[], "test", [], status, jobErr, "VM-123"⟩,
   [], rfl, rfl, rfl, rfl, rfl, rfl, rfl⟩

/-- No call of `CreateVM` up to `DefineSystem` is a job wait. -/
theorem wait_not_mem_defineCalls (E : Env σ C R L) (m : Manager C R) (name : String)
    (notes : List String) (generation : String) (tmpl inst : R) (vmText : String) (p : String) :
    Call.WaitForJob p ∉ defineCalls E m name notes generation tmpl inst vmText := by
  unfold defineCalls
  split <;> simp

/-- C5: after a successful `DefineSystem` answering the status `st` and the job
path `path`, `CreateVM` calls the job wait if and only if `st` is the "started"
code, and then on `path` only; when the wait fails with `jobErr`, `CreateVM`
returns no machine and `jobErr` wrapped with "waiting for job" (so its cause is
that of `jobErr`), and the wait is the last call it makes. -/
theorem CreateVM_job_step (E : Env σ C R L) (m : Manager C R) (name : String)
    (memoryMB cpus : Int) (limitCPUFeatures : Bool) (notes : List String) (generation : String)
    (s : World σ C R L) (tmpl inst jobState : R) (vmText : String) (outs : List Any) (w7 : σ)
    (st : Int) (path : String)
    (hpre : DefineSucceeds E m name notes generation s.world tmpl inst vmText jobState outs w7)
    (hst : E.Value jobState = .int32 st)
    (hpath : outs.getD 1 .null = .str path) :
    (∀ p, Call.WaitForJob p ∈
        callsOf (Manager.CreateVM E m name memoryMB cpus limitCPUFeatures notes generation) s ↔
      (p = path ∧ st = E.JobStatusStarted)) ∧
    (∀ jobErr w8, st = E.JobStatusStarted → E.WaitForJob path w7 = (some jobErr, w8) →
      (Manager.CreateVM E m name memoryMB cpus limitCPUFeatures notes generation s).1 =
        .val (none, some (.withMessage jobErr "waiting for job")) ∧
      Cause (.withMessage jobErr "waiting for job") = Cause jobErr ∧
      (Manager.CreateVM E m name memoryMB cpus limitCPUFeatures notes generation s).2.world
        = w8 ∧
      callsOf (Manager.CreateVM E m name memoryMB cpus limitCPUFeatures notes generation) s =
        defineCalls E m name notes generation tmpl inst vmText ++ [.WaitForJob path]) := by
  constructor
  · intro p
    by_cases hs : st = E.JobStatusStarted
    · subst hs
      obtain ⟨l, hl, hP⟩ := CreateVM_calls_started E m name memoryMB cpus limitCPUFeatures
        notes generation s tmpl inst jobState vmText outs w7 path hpre hst hpath
      rw [hl]
      have hnot : Call.WaitForJob p ∉ l := fun h => by
        have := hP _ h
        simp [Call.IsResolve, Call.IsLookup] at this
      have hpre2 := wait_not_mem_defineCalls E m name notes generation tmpl inst vmText p
      simp [hnot, hpre2]
    · obtain ⟨l, hl, hP⟩ := CreateVM_calls_not_started E m name memoryMB cpus limitCPUFeatures
        notes generation s tmpl inst jobState vmText outs w7 st hpre hst hs
      rw [hl]
      have hnot : Call.WaitForJob p ∉ l := fun h => by
        have := hP _ h
        simp [Call.IsResolve, Call.IsLookup] at this
      have hpre2 := wait_not_mem_defineCalls E m name notes generation tmpl inst vmText p
      simp [hnot, hpre2, hs]
  · intro jobErr w8 hs hw
    subst hs
    obtain ⟨w1, w2, w3, w4, w5, w6, o2, h1, h2, h3, h4, h5, h6, h7⟩ := hpre
    have hrun : Manager.CreateVM E m name memoryMB cpus limitCPUFeatures notes generation s =
        (.val (none, some (.withMessage jobErr "waiting for job")),
          ⟨w8, s.trace ++ (defineCalls E m name notes generation tmpl inst vmText ++
            [.WaitForJob path])⟩) := by
      simp only [Manager.CreateVM, Bind.bind, Pure.pure,
        Env.conGet, Env.get, Env.set, Env.getText, Env.waitForJob,
        Go.bind_call, Go.bind_pure, notes_step E inst notes w4 w5 h5, Go.bind_assoc,
        Go.bind_assertInt32_int32, Go.bind_assertString_str, h1, h2, h3, h4, h6, h7, hst,
        hpath, hw, if_true, Go.pure_apply, Wrap, defineCalls, List.append_assoc, List.cons_append,
        List.nil_append]
    refine ⟨by rw [hrun], rfl, by rw [hrun], ?_⟩
    simp [callsOf, hrun]

/-- C5 on the fake service whose `DefineSystem` answers "started" and whose job
fails: `CreateVM` returns the wrapped job error, and the wait is its last
call. -/
theorem CreateVM_job_step_witness :
    (Manager.CreateVM (fakeEnv 4) fakeMgr "test" 1024 2 false [] "gen"
        (fakeStart [] 4096 (some (.errorf "job failed")) "VM-123")).1 =
      .val (none, some (.withMessage (.errorf "job failed") "waiting for job")) ∧
    callsOf (Manager.CreateVM (fakeEnv 4) fakeMgr "test" 1024 2 false [] "gen")
        (fakeStart [] 4096 (some (.errorf "job failed")) "VM-123") =
      defineCalls (fakeEnv 4) fakeMgr "test" [] "gen" (.cls "Msvm_VirtualSystemSettingData")
        .draft "test" ++ [.WaitForJob "job-1"] :=
  have h := (CreateVM_job_step (fakeEnv 4) fakeMgr "test" 1024 2 false [] "gen"
    (fakeStart [] 4096 (some (.errorf "job failed")) "VM-123")
    (.cls "Msvm_VirtualSystemSettingData") .draft (.prim (.int32 4096)) "test"
    [.str "VM-123", .str "job-1"]
    ⟨[⟨"VM-123", "test", 1⟩], "test", [], 4096, some (.errorf "job failed"), "VM-123"⟩
    4096 "job-1" (fake_define_succeeds 4096 (some (.errorf "job failed"))) rfl rfl).2
    (.errorf "job failed")
    ⟨[⟨"VM-123", "test", 1⟩], "test", [], 4096, some (.errorf "job failed"), "VM-123"⟩
    rfl rfl
  ⟨h.1, h.2.2.2⟩

/-- C10, as the code has it: `DefineSystem` answers the terminal status 32768,
which is neither the success code 0 nor "started", and `CreateVM` does not
fail: it resolves the result locator and returns the machine with a nil
error. -/
theorem CreateVM_terminal_status_proceeds :
    (32768 : Int) ≠ 0 ∧ (32768 : Int) ≠ (fakeEnv 4).JobStatusStarted ∧
    (Manager.CreateVM (fakeEnv 4) fakeMgr "test" 1024 2 false [] "gen"
        (fakeStart [] 32768 none "VM-123")).1 =
      .val (some ⟨fakeMgr, .settings 0, .system 0⟩, none) ∧
    callsOf (Manager.CreateVM (fakeEnv 4) fakeMgr "test" 1024 2 false [] "gen")
        (fakeStart [] 32768 none "VM-123") =
      defineCalls (fakeEnv 4) fakeMgr "test" [] "gen" (.cls "Msvm_VirtualSystemSettingData")
        .draft "test" ++
      [.NewLocation "VM-123", .GetResult "VM-123", .GetProperty (.system 0) "Name",
       .Gwmi () "Msvm_VirtualSystemSettingData" [] (getVMQuery (fakeEnv 4) "VM-123"),
       .ItemAtIndex (.coll [.settings 0]) 0,
       .Get (.settings 0) "associators_" [.null, .str "Msvm_ComputerSystem"],
       .Elements (.coll [.system 0])] :=
  ⟨by decide, by decide, rfl, rfl⟩

/-- C10, amended: after a successful `DefineSystem` answering any status other
than "started" (the success code or not) and the locator `loc`, `CreateVM`
never calls the job wait and goes straight on to resolve `loc`: the call that
follows `DefineSystem` is `NewLocation(loc)`, and only resolve calls follow. -/
theorem CreateVM_status_not_started (E : Env σ C R L) (m : Manager C R) (name : String)
    (memoryMB cpus : Int) (limitCPUFeatures : Bool) (notes : List String) (generation : String)
    (s : World σ C R L) (tmpl inst jobState : R) (vmText : String) (outs : List Any) (w7 : σ)
    (st : Int) (loc : String)
    (hpre : DefineSucceeds E m name notes generation s.world tmpl inst vmText jobState outs w7)
    (hst : E.Value jobState = .int32 st) (hs : st ≠ E.JobStatusStarted)
    (hloc : outs.getD 0 .null = .str loc) :
    (∃ l, callsOf (Manager.CreateVM E m name memoryMB cpus limitCPUFeatures notes generation) s
        = (defineCalls E m name notes generation tmpl inst vmText ++ [.NewLocation loc]) ++ l ∧
      ∀ c ∈ l, Call.IsResolve c) ∧
    ∀ p, Call.WaitForJob p ∉
      callsOf (Manager.CreateVM E m name memoryMB cpus limitCPUFeatures notes generation) s := by
  have hcalls : ∃ l, callsOf (Manager.CreateVM E m name memoryMB cpus limitCPUFeatures notes
      generation) s
        = (defineCalls E m name notes generation tmpl inst vmText ++ [.NewLocation loc]) ++ l ∧
      ∀ c ∈ l, Call.IsResolve c := by
    obtain ⟨w1, w2, w3, w4, w5, w6, o2, h1, h2, h3, h4, h5, h6, h7⟩ := hpre
    simp only [Manager.CreateVM, Bind.bind, Pure.pure,
      Env.conGet, Env.get, Env.set, Env.getText, Env.waitForJob, Env.newLocation,
      callsOf, Go.bind_call, Go.bind_pure, notes_step E inst notes w4 w5 h5,
      Go.bind_assertInt32_int32, Go.bind_assertString_str, h1, h2, h3, h4, h6, h7, hst, hs,
      hloc, if_false]
    refine emits_calls_of ?_ _ _ _ (by simp) (by simp [defineCalls])
    simp only [VirtualMachine.SetMemory, VirtualMachine.SetNumCPUs,
      Env.getResult, Env.getProperty]
    repeat' first
      | with_reducible exact emits_pure _ _
      | with_reducible exact emits_assertString _ _
      | (with_reducible refine emits_call _ _ _ ?_) <;> simp [Call.IsResolve]
      | (with_reducible refine emits_mono (GetVM_emits E m _) ?_) <;>
          (intro c hc; cases c <;> simp_all [Call.IsResolve, Call.IsLookup])
      | with_reducible apply emits_bind
      | split
      | intro _
  refine ⟨hcalls, ?_⟩
  obtain ⟨l, hl, hP⟩ := hcalls
  intro p
  rw [hl]
  have hnot : Call.WaitForJob p ∉ l := fun h => by
    have := hP _ h
    simp [Call.IsResolve, Call.IsLookup] at this
  have hpre2 := wait_not_mem_defineCalls E m name notes generation tmpl inst vmText p
  simp [hnot, hpre2]

/-- C10, amended, on the fake service whose `DefineSystem` answers the success
code 0: no job wait is called. -/
theorem CreateVM_status_not_started_witness :
    (0 : Int) ≠ (fakeEnv 4).JobStatusStarted ∧
    ∀ p, Call.WaitForJob p ∉
      callsOf (Manager.CreateVM (fakeEnv 4) fakeMgr "test" 1024 2 false [] "gen")
        (fakeStart [] 0 none "VM-123") :=
  ⟨by decide, (CreateVM_status_not_started (fakeEnv 4) fakeMgr "test" 1024 2 false [] "gen"
    (fakeStart [] 0 none "VM-123") (.cls "Msvm_VirtualSystemSettingData") .draft
    (.prim (.int32 0)) "test" [.str "VM-123", .str "job-1"]
    ⟨[⟨"VM-123", "test", 1⟩], "test", [], 0, none, "VM-123"⟩ 0 "VM-123"
    (fake_define_succeeds 0 none) rfl (by decide) rfl).2⟩

theorem emits_assertInt32 (P : Call C R L → Prop) (v : Any) :
    Emits P (assertInt32 v : Go (World σ C R L) Int) := by
  cases v <;> first | exact emits_pure P _ | exact emits_panic P _

/-- C4: when `CreateVM` is given a non-empty `notes` list and reaches the notes
step (the template, the spawned instance `inst` and its first two fields are
obtained and set without error), exactly one of the calls it makes assigns the
"Notes" field, and the value assigned is a list of exactly one string, the
strings of `notes` joined with newlines in their order. -/
theorem CreateVM_notes_joined (E : Env σ C R L) (m : Manager C R) (name : String)
    (memoryMB cpus : Int) (limitCPUFeatures : Bool) (notes : List String) (generation : String)
    (s : World σ C R L) (tmpl inst : R) (w1 w2 w3 w4 : σ) (o2 : List Any)
    (hnotes : notes ≠ [])
    (h1 : E.ConGet m.con E.VirtualSystemSettingDataClass s.world = (.ok tmpl, w1))
    (h2 : E.Get tmpl "SpawnInstance_" [] w1 = ((.ok inst, o2), w2))
    (h3 : E.Set inst "ElementName" [.str name] w2 = (none, w3))
    (h4 : E.Set inst "VirtualSystemSubType" [.str generation] w3 = (none, w4)) :
    (callsOf (Manager.CreateVM E m name memoryMB cpus limitCPUFeatures notes generation) s).filter
        (Call.isSetOf "Notes") =
      [.Set inst "Notes" [.strs [Join notes "\n"]]] ∧
    [Join notes "\n"].length = 1 ∧
    (∀ a, Join [a] "\n" = a) ∧
    (∀ a b rest, Join (a :: b :: rest) "\n" = a ++ "\n" ++ Join (b :: rest) "\n") := by
  refine ⟨?_, rfl, fun _ => rfl, fun _ _ _ => rfl⟩
  have hn : notes.length > 0 := List.length_pos.2 hnotes
  obtain ⟨l, hl, hP⟩ : ∃ l,
      callsOf (Manager.CreateVM E m name memoryMB cpus limitCPUFeatures notes generation) s =
        [.ConGet m.con E.VirtualSystemSettingDataClass, .Get tmpl "SpawnInstance_" [],
         .Set inst "ElementName" [.str name], .Set inst "VirtualSystemSubType" [.str generation],
         .Set inst "Notes" [.strs [Join notes "\n"]]] ++ l ∧
      ∀ c ∈ l, Call.isSetOf "Notes" c = false := by
    simp only [Manager.CreateVM, Bind.bind, Pure.pure, Env.conGet, Env.get, Env.set,
      callsOf, Go.bind_call, Go.bind_pure, Go.bind_ite, h1, h2, h3, h4, hn, if_true]
    refine emits_calls_of ?_ _ _ _ (by simp) (by simp)
    simp only [VirtualMachine.SetMemory, VirtualMachine.SetNumCPUs, Env.newLocation,
      Env.getResult, Env.getProperty, Env.getText, Env.waitForJob]
    repeat' first
      | with_reducible exact emits_pure _ _
      | with_reducible exact emits_assertString _ _
      | with_reducible exact emits_assertInt32 _ _
      | (with_reducible refine emits_call _ _ _ ?_) <;> simp [Call.isSetOf]
      | (with_reducible refine emits_mono (GetVM_emits E m _) ?_) <;>
          (intro c hc; cases c <;> simp_all [Call.isSetOf, Call.IsLookup])
      | with_reducible apply emits_bind
      | split
      | intro _
  have hl2 : l.filter (Call.isSetOf "Notes") = [] :=
    List.filter_eq_nil_iff.2 fun c hc => by simp [hP c hc]
  rw [hl, List.filter_append, hl2]
  simp [List.filter, Call.isSetOf]

/-- C4 on the fake service, with the two notes "a" and "b": the only assignment
to "Notes" carries the single string "a\nb". -/
theorem CreateVM_notes_joined_witness :
    (callsOf (Manager.CreateVM (fakeEnv 4) fakeMgr "test" 1024 2 false ["a", "b"] "gen")
        (fakeStart [] 4096 none "VM-123")).filter (Call.isSetOf "Notes") =
      [.Set .draft "Notes" [.strs ["a\nb"]]] :=
  (CreateVM_notes_joined (fakeEnv 4) fakeMgr "test" 1024 2 false ["a", "b"] "gen"
    (fakeStart [] 4096 none "VM-123") (.cls "Msvm_VirtualSystemSettingData") .draft
    ⟨[], "", [], 4096, none, "VM-123"⟩ ⟨[], "", [], 4096, none, "VM-123"⟩
    ⟨[], "test", [], 4096, none, "VM-123"⟩ ⟨[], "test", [], 4096, none, "VM-123"⟩ []
    (by simp) rfl rfl rfl rfl).1

/-- The job step of `CreateVM`, when it succeeds. -/
theorem job_step {β : Type} (E : Env σ C R L) (st : Int) (outs : List Any) (path : String)
    (w7 w8 : σ) (h : JobSucceeds E st outs path w7 w8)
    (k : Option Error → Go (World σ C R L) β) (tr : List (Call C R L)) :
    Go.bind (if st = E.JobStatusStarted then
        Go.bind (assertString (outs.getD 1 .null)) fun path =>
          call (.WaitForJob path) (E.WaitForJob path)
      else Go.pure none) k ⟨w7, tr⟩ =
    k none ⟨w8, tr ++ jobCalls E st path⟩ := by
  unfold JobSucceeds at h
  by_cases hs : st = E.JobStatusStarted
  · simp only [hs, if_true] at h
    simp only [hs, if_true, h.1, Go.bind_assoc, Go.bind_assertString_str, Go.bind_call, h.2,
      jobCalls]
  · simp only [hs, if_false] at h
    subst h
    simp only [hs, if_false, Go.bind_pure, jobCalls, List.append_nil]

/-- The entity lookup, when it succeeds, returns the entity it has paired. -/
theorem GetVM_of_lookup (E : Env σ C R L) (m : Manager C R) (id : String) (w11 : σ)
    (result vssd cs elem0 : R) (w15 : σ)
    (h : LookupSucceeds E m id w11 result vssd cs elem0 w15) (tr : List (Call C R L)) :
    Manager.GetVM E m id ⟨w11, tr⟩ =
      (.val (some ⟨m, vssd, elem0⟩, none), ⟨w15, tr ++ lookupCalls E m id result vssd cs⟩) := by
  obtain ⟨w12, w13, w14, o, rest, h1, h2, h3, h4⟩ := h
  simp only [getVMQuery] at h1
  simp only [Manager.GetVM, Bind.bind, Pure.pure, Env.gwmi, Env.itemAtIndex, Env.get,
    Env.elements, Go.bind_call, Go.pure_apply, h1, h2, h3, h4, lookupCalls,
    getVMQuery, List.append_assoc, List.cons_append, List.nil_append]

/-- The entity lookup inside a computation, when it succeeds. -/
theorem lookup_step {β : Type} (E : Env σ C R L) (m : Manager C R) (id : String) (w11 : σ)
    (result vssd cs elem0 : R) (w15 : σ)
    (h : LookupSucceeds E m id w11 result vssd cs elem0 w15)
    (k : Option (VirtualMachine C R) × Option Error → Go (World σ C R L) β)
    (tr : List (Call C R L)) :
    Go.bind (Manager.GetVM E m id) k ⟨w11, tr⟩ =
    k (some ⟨m, vssd, elem0⟩, none) ⟨w15, tr ++ lookupCalls E m id result vssd cs⟩ := by
  simp only [Go.bind, GetVM_of_lookup E m id w11 result vssd cs elem0 w15 h tr]

/-- A run of `CreateVM` in which every collaborator call succeeds: its result is
decided by `SetNumCPUs`, its final world is the one left by the entity lookup,
and its calls are those of the four stages. -/
theorem CreateVM_full_run (E : Env σ C R L) (m : Manager C R) (name : String)
    (memoryMB cpus : Int) (limitCPUFeatures : Bool) (notes : List String) (generation : String)
    (s : World σ C R L) (tmpl inst jobState : R) (vmText : String) (outs : List Any)
    (w7 w8 w11 w15 : σ) (st : Int) (path loc : String) (l : L) (res : R) (id : String)
    (result vssd cs elem0 : R)
    (hpre : DefineSucceeds E m name notes generation s.world tmpl inst vmText jobState outs w7)
    (hst : E.Value jobState = .int32 st)
    (hjob : JobSucceeds E st outs path w7 w8)
    (hres : ResolveSucceeds E outs w8 loc l res id w11)
    (hlook : LookupSucceeds E m id w11 result vssd cs elem0 w15) :
    Manager.CreateVM E m name memoryMB cpus limitCPUFeatures notes generation s =
      (.val (match VirtualMachine.SetNumCPUs E (some ⟨m, vssd, elem0⟩) cpus with
          | some err => (none, Wrap (some err) "setting CPU limit")
          | none => (some ⟨m, vssd, elem0⟩, none)),
        ⟨w15, s.trace ++ (defineCalls E m name notes generation tmpl inst vmText ++
          (jobCalls E st path ++ (resolveCalls loc l res ++
            lookupCalls E m id result vssd cs)))⟩) := by
  obtain ⟨w1, w2, w3, w4, w5, w6, o2, h1, h2, h3, h4, h5, h6, h7⟩ := hpre
  obtain ⟨w9, w10, idr, r1, r2, r3, r4, r5⟩ := hres
  simp only [Manager.CreateVM, Bind.bind, Pure.pure,
    Env.conGet, Env.get, Env.set, Env.getText, Env.waitForJob, Env.newLocation, Env.getResult,
    Env.getProperty, Go.bind_call, Go.bind_pure, notes_step E inst notes w4 w5 h5,
    job_step E st outs path w7 w8 hjob,
    lookup_step E m id w11 result vssd cs elem0 w15 hlook,
    Go.bind_assertInt32_int32, Go.bind_assertString_str, h1, h2, h3, h4, h6, h7, hst,
    r1, r2, r3, r4, r5, VirtualMachine.SetMemory, defineCalls, resolveCalls,
    List.append_assoc, List.cons_append, List.nil_append]
  cases VirtualMachine.SetNumCPUs E (some ⟨m, vssd, elem0⟩) cpus <;> rfl

/-- On the fake service, resolving the locator of the machine just defined
succeeds and reads the identifier "VM-123". -/
theorem fake_resolve_succeeds (status : Int) (jobErr : Option Error) :
    ResolveSucceeds (fakeEnv 4) [.str "VM-123", .str "job-1"] (fakeDefined status jobErr)
      "VM-123" "VM-123" (.system 0) "VM-123" (fakeDefined status jobErr) :=
  ⟨fakeDefined status jobErr, fakeDefined status jobErr, .prim (.str "VM-123"),
    rfl, rfl, rfl, rfl, rfl⟩

/-- On the fake service, the entity lookup of the machine just defined
succeeds. -/
theorem fake_lookup_succeeds (status : Int) (jobErr : Option Error) :
    LookupSucceeds (fakeEnv 4) fakeMgr "VM-123" (fakeDefined status jobErr)
      (.coll [.settings 0]) (.settings 0) (.coll [.system 0]) (.system 0)
      (fakeDefined status jobErr) :=
  ⟨fakeDefined status jobErr, fakeDefined status jobErr, fakeDefined status jobErr, [], [],
    rfl, rfl, rfl, rfl⟩

/-- C3, as the code has it: on a host with four processors, `CreateVM` asked
for eight invokes `DefineSystem`, which defines the machine, and fails only
afterwards, once the machine has been looked up again. -/
theorem CreateVM_cpus_exceed_after_define :
    ((fakeEnv 4).NumCPU : Int) < 8 ∧
    (Manager.CreateVM (fakeEnv 4) fakeMgr "test" 1024 8 false [] "gen"
        (fakeStart [] 4096 none "VM-123")).1 =
      .val (none, some (.withMessage
        (.errorf "Number of cpus exceeded available host resources") "setting CPU limit")) ∧
    (∃ pre post, callsOf (Manager.CreateVM (fakeEnv 4) fakeMgr "test" 1024 8 false [] "gen")
        (fakeStart [] 4096 none "VM-123") =
      pre ++ [.Get .svc "DefineSystem" [.str "test", .null, .null, .variantPtr, .variantPtr]]
        ++ post) ∧
    (fakeStart [] 4096 none "VM-123").world.vms = [] ∧
    (Manager.CreateVM (fakeEnv 4) fakeMgr "test" 1024 8 false [] "gen"
        (fakeStart [] 4096 none "VM-123")).2.world.vms = [⟨"VM-123", "test", 1⟩] :=
  ⟨by decide, rfl,
    ⟨[.ConGet () "Msvm_VirtualSystemSettingData",
      .Get (.cls "Msvm_VirtualSystemSettingData") "SpawnInstance_" [],
      .Set .draft "ElementName" [.str "test"], .Set .draft "VirtualSystemSubType" [.str "gen"],
      .GetText .draft 1],
     [.WaitForJob "job-1", .NewLocation "VM-123", .GetResult "VM-123",
      .GetProperty (.system 0) "Name",
      .Gwmi () "Msvm_VirtualSystemSettingData" [] (getVMQuery (fakeEnv 4) "VM-123"),
      .ItemAtIndex (.coll [.settings 0]) 0,
      .Get (.settings 0) "associators_" [.null, .str "Msvm_ComputerSystem"],
      .Elements (.coll [.system 0])], rfl⟩,
    rfl, rfl⟩

theorem yields_pure {α : Type} (Q : α → Prop) (a : α) (h : Q a) :
    Yields Q (Go.pure a : Go (World σ C R L) α) := by
  intro s b hb
  simp only [Go.pure_apply, Res.val.injEq] at hb
  exact hb ▸ h

theorem yields_bind {α β : Type} {Q : β → Prop} (m : Go (World σ C R L) α)
    {f : α → Go (World σ C R L) β} (hf : ∀ a, Yields Q (f a)) : Yields Q (Go.bind m f) := by
  intro s b hb
  simp only [Go.bind] at hb
  rcases hm : m s with ⟨r, s1⟩
  rw [hm] at hb
  cases r with
  | val a => exact hf a s1 b hb
  | panic e => simp at hb

/-- C3, amended: when the requested CPU count is greater than the host's
logical processor count, `CreateVM` never returns with a nil error; and when
every step before the CPU setting succeeds (the definition of the system, the
job, the resolution of the result and the lookup of the machine), it returns
no machine and the capacity error wrapped with "setting CPU limit", with
`DefineSystem` among the calls it has made and the world left as the lookup
left it. -/
theorem CreateVM_cpus_exceed_host (E : Env σ C R L) (m : Manager C R) (name : String)
    (memoryMB cpus : Int) (limitCPUFeatures : Bool) (notes : List String) (generation : String)
    (s : World σ C R L) (hcpus : cpus > (E.NumCPU : Int)) :
    (∀ vm, (Manager.CreateVM E m name memoryMB cpus limitCPUFeatures notes generation s).1
      ≠ .val (vm, none)) ∧
    ∀ (tmpl inst jobState : R) (vmText : String) (outs : List Any) (w7 w8 w11 w15 : σ)
      (st : Int) (path loc : String) (l : L) (res : R) (id : String) (result vssd cs elem0 : R),
      DefineSucceeds E m name notes generation s.world tmpl inst vmText jobState outs w7 →
      E.Value jobState = .int32 st →
      JobSucceeds E st outs path w7 w8 →
      ResolveSucceeds E outs w8 loc l res id w11 →
      LookupSucceeds E m id w11 result vssd cs elem0 w15 →
      (Manager.CreateVM E m name memoryMB cpus limitCPUFeatures notes generation s).1 =
        .val (none, some (.withMessage
          (.errorf "Number of cpus exceeded available host resources") "setting CPU limit")) ∧
      Call.Get m.svc "DefineSystem" [.str vmText, .null, .null, .variantPtr, .variantPtr] ∈
        callsOf (Manager.CreateVM E m name memoryMB cpus limitCPUFeatures notes generation) s ∧
      (Manager.CreateVM E m name memoryMB cpus limitCPUFeatures notes generation s).2.world
        = w15 := by
  have hlt : (E.NumCPU : Int) < cpus := hcpus
  constructor
  · have hy : Yields (fun r : Option (VirtualMachine C R) × Option Error => r.2 ≠ none)
        (Manager.CreateVM E m name memoryMB cpus limitCPUFeatures notes generation) := by
      simp only [Manager.CreateVM, Bind.bind, Pure.pure, VirtualMachine.SetMemory]
      repeat' first
        | (with_reducible refine yields_pure _ _ ?_) <;> simp [Wrap]
        | with_reducible apply yields_bind
        | split
        | intro _
      all_goals simp_all [VirtualMachine.SetNumCPUs]
    intro vm h
    exact hy s (vm, none) h rfl
  · intro tmpl inst jobState vmText outs w7 w8 w11 w15 st path loc l res id result vssd cs elem0
      hpre hst hjob hres hlook
    have hrun := CreateVM_full_run E m name memoryMB cpus limitCPUFeatures notes generation s
      tmpl inst jobState vmText outs w7 w8 w11 w15 st path loc l res id result vssd cs elem0
      hpre hst hjob hres hlook
    refine ⟨?_, ?_, ?_⟩
    · rw [hrun]
      simp [VirtualMachine.SetNumCPUs, hlt, Wrap]
    · simp [callsOf, hrun, defineCalls]
    · rw [hrun]

/-- C3, amended, on the fake service with four processors and eight requested:
the capacity error comes back and `DefineSystem` has been called. -/
theorem CreateVM_cpus_exceed_host_witness :
    (8 : Int) > ((fakeEnv 4).NumCPU : Int) ∧
    (Manager.CreateVM (fakeEnv 4) fakeMgr "test" 1024 8 false [] "gen"
        (fakeStart [] 4096 none "VM-123")).1 =
      .val (none, some (.withMessage
        (.errorf "Number of cpus exceeded available host resources") "setting CPU limit")) ∧
    Call.Get FakeRef.svc "DefineSystem" [.str "test", .null, .null, .variantPtr, .variantPtr] ∈
      callsOf (Manager.CreateVM (fakeEnv 4) fakeMgr "test" 1024 8 false [] "gen")
        (fakeStart [] 4096 none "VM-123") :=
  have h := (CreateVM_cpus_exceed_host (fakeEnv 4) fakeMgr "test" 1024 8 false [] "gen"
    (fakeStart [] 4096 none "VM-123") (by decide)).2
    (.cls "Msvm_VirtualSystemSettingData") .draft
    (.prim (.int32 4096)) "test" [.str "VM-123", .str "job-1"]
    (fakeDefined 4096 none) (fakeDefined 4096 none) (fakeDefined 4096 none)
    (fakeDefined 4096 none) 4096 "job-1" "VM-123" "VM-123" (.system 0) "VM-123"
    (.coll [.settings 0]) (.settings 0) (.coll [.system 0]) (.system 0)
    (fake_define_succeeds 4096 none) rfl ⟨rfl, rfl⟩
    (fake_resolve_succeeds 4096 none) (fake_lookup_succeeds 4096 none)
  ⟨by decide, h.1, h.2.1⟩

/-- C9, as the code has it: what `ID()` and `Name()` yield on the entity that
`CreateVM` returns is decided by the service.  On the fake service that
already holds a machine "VM-123" named "old", `CreateVM("test", 1024, 2, false,
nil, gen)` has the system defined, waits for the started job, resolves the
locator to an object whose "Name" is "VM-123" and returns the entity of
`GetVM("VM-123")` with a nil error, and `Name()` on it yields "old".  On the
fake service whose query ignores its filters and which holds a machine "VM-0",
the same call returns an entity whose `ID()` yields "VM-0". -/
theorem CreateVM_end_to_end_service_decides :
    (2 : Int) ≤ ((fakeEnv 4).NumCPU : Int) ∧
    (Manager.CreateVM (fakeEnv 4) fakeMgr "test" 1024 2 false [] "gen"
        (fakeStart [⟨"VM-123", "old", 1⟩] 4096 none "VM-123")).1 =
      .val (some ⟨fakeMgr, .settings 0, .system 0⟩, none) ∧
    callsOf (Manager.CreateVM (fakeEnv 4) fakeMgr "test" 1024 2 false [] "gen")
        (fakeStart [⟨"VM-123", "old", 1⟩] 4096 none "VM-123") =
      defineCalls (fakeEnv 4) fakeMgr "test" [] "gen" (.cls "Msvm_VirtualSystemSettingData")
        .draft "test" ++
      [.WaitForJob "job-1", .NewLocation "VM-123", .GetResult "VM-123",
       .GetProperty (.system 0) "Name",
       .Gwmi () "Msvm_VirtualSystemSettingData" [] (getVMQuery (fakeEnv 4) "VM-123"),
       .ItemAtIndex (.coll [.settings 0, .settings 1]) 0,
       .Get (.settings 0) "associators_" [.null, .str "Msvm_ComputerSystem"],
       .Elements (.coll [.system 0])] ∧
    (VirtualMachine.ID (fakeEnv 4) (some ⟨fakeMgr, .settings 0, .system 0⟩)
      (Manager.CreateVM (fakeEnv 4) fakeMgr "test" 1024 2 false [] "gen"
        (fakeStart [⟨"VM-123", "old", 1⟩] 4096 none "VM-123")).2).1 = .val ("VM-123", none) ∧
    (VirtualMachine.Name (fakeEnv 4) (some ⟨fakeMgr, .settings 0, .system 0⟩)
      (VirtualMachine.ID (fakeEnv 4) (some ⟨fakeMgr, .settings 0, .system 0⟩)
        (Manager.CreateVM (fakeEnv 4) fakeMgr "test" 1024 2 false [] "gen"
          (fakeStart [⟨"VM-123", "old", 1⟩] 4096 none "VM-123")).2).2).1 = .val ("old", none) ∧
    (Manager.CreateVM (fakeEnvLoose 4) fakeMgr "test" 1024 2 false [] "gen"
        (fakeStart [⟨"VM-0", "old", 1⟩] 4096 none "VM-123")).1 =
      .val (some ⟨fakeMgr, .settings 0, .system 0⟩, none) ∧
    callsOf (Manager.CreateVM (fakeEnvLoose 4) fakeMgr "test" 1024 2 false [] "gen")
        (fakeStart [⟨"VM-0", "old", 1⟩] 4096 none "VM-123") =
      defineCalls (fakeEnvLoose 4) fakeMgr "test" [] "gen"
        (.cls "Msvm_VirtualSystemSettingData") .draft "test" ++
      [.WaitForJob "job-1", .NewLocation "VM-123", .GetResult "VM-123",
       .GetProperty (.system 1) "Name",
       .Gwmi () "Msvm_VirtualSystemSettingData" [] (getVMQuery (fakeEnvLoose 4) "VM-123"),
       .ItemAtIndex (.coll [.settings 0, .settings 1]) 0,
       .Get (.settings 0) "associators_" [.null, .str "Msvm_ComputerSystem"],
       .Elements (.coll [.system 0])] ∧
    (VirtualMachine.ID (fakeEnvLoose 4) (some ⟨fakeMgr, .settings 0, .system 0⟩)
      (Manager.CreateVM (fakeEnvLoose 4) fakeMgr "test" 1024 2 false [] "gen"
        (fakeStart [⟨"VM-0", "old", 1⟩] 4096 none "VM-123")).2).1 = .val ("VM-0", none) :=
  ⟨by decide, rfl, rfl, rfl, rfl, rfl, rfl, rfl⟩

/-- C9, amended: on a service where `CreateVM(name, ...)` has the system
defined, gets a started job that completes, resolves the result locator to an
object whose "Name" is `id`, and looks the machine `id` up successfully, and
where `cpus` does not exceed the host's processor count, `CreateVM` returns
with a nil error exactly the entity that `GetVM(id)` resolves in the world it
is looked up in.  `ID()` on that entity then yields whatever string the service
reports as the "VirtualSystemIdentifier" of its settings data, and a subsequent
`Name()` whatever string it reports as the "ElementName" of its computer
system. -/
theorem CreateVM_end_to_end (E : Env σ C R L) (m : Manager C R) (name : String)
    (memoryMB cpus : Int) (limitCPUFeatures : Bool) (notes : List String) (generation : String)
    (s : World σ C R L) (tmpl inst jobState : R) (vmText : String) (outs : List Any)
    (w7 w8 w11 w15 : σ) (path loc : String) (l : L) (res : R) (id : String)
    (result vssd cs elem0 : R)
    (hcpus : cpus ≤ (E.NumCPU : Int))
    (hpre : DefineSucceeds E m name notes generation s.world tmpl inst vmText jobState outs w7)
    (hst : E.Value jobState = .int32 E.JobStatusStarted)
    (hpath : outs.getD 1 .null = .str path)
    (hwait : E.WaitForJob path w7 = (none, w8))
    (hres : ResolveSucceeds E outs w8 loc l res id w11)
    (hlook : LookupSucceeds E m id w11 result vssd cs elem0 w15) :
    (Manager.CreateVM E m name memoryMB cpus limitCPUFeatures notes generation s).1 =
      .val (some ⟨m, vssd, elem0⟩, none) ∧
    (∀ tr, (Manager.GetVM E m id ⟨w11, tr⟩).1 = .val (some ⟨m, vssd, elem0⟩, none)) ∧
    (Manager.CreateVM E m name memoryMB cpus limitCPUFeatures notes generation s).2.world
      = w15 ∧
    ∀ (idp : R) (w16 : σ) (reportedID : String),
      E.GetProperty vssd "VirtualSystemIdentifier" w15 = (.ok idp, w16) →
      E.Value idp = .str reportedID →
      (VirtualMachine.ID E (some ⟨m, vssd, elem0⟩)
        (Manager.CreateVM E m name memoryMB cpus limitCPUFeatures notes generation s).2).1 =
        .val (reportedID, none) ∧
      ∀ (namep : R) (w17 : σ) (reportedName : String),
        E.GetProperty elem0 "ElementName" w16 = (.ok namep, w17) →
        E.Value namep = .str reportedName →
        (VirtualMachine.Name E (some ⟨m, vssd, elem0⟩)
          (VirtualMachine.ID E (some ⟨m, vssd, elem0⟩)
            (Manager.CreateVM E m name memoryMB cpus limitCPUFeatures notes generation
              s).2).2).1 =
          .val (reportedName, none) := by
  have hjob : JobSucceeds E E.JobStatusStarted outs path w7 w8 := by
    unfold JobSucceeds
    rw [if_pos rfl]
    exact ⟨hpath, hwait⟩
  have hrun := CreateVM_full_run E m name memoryMB cpus limitCPUFeatures notes generation s
    tmpl inst jobState vmText outs w7 w8 w11 w15 E.JobStatusStarted path loc l res id result
    vssd cs elem0 hpre hst hjob hres hlook
  have hle : ¬ ((E.NumCPU : Int) < cpus) := not_lt.2 hcpus
  have hset : VirtualMachine.SetNumCPUs E (some ⟨m, vssd, elem0⟩) cpus = none := by
    simp [VirtualMachine.SetNumCPUs, hle]
  rw [hset] at hrun
  refine ⟨by rw [hrun], ?_, by rw [hrun], ?_⟩
  · intro tr
    rw [GetVM_of_lookup E m id w11 result vssd cs elem0 w15 hlook tr]
  · intro idp w16 reportedID hid hidv
    refine ⟨?_, ?_⟩
    · simp only [hrun, VirtualMachine.ID, Bind.bind, Pure.pure, Env.getProperty, Go.bind_call,
        hid, hidv, Go.bind_assertString_str, Go.pure_apply]
    · intro namep w17 reportedName hname hnamev
      simp only [hrun, VirtualMachine.ID, VirtualMachine.Name, Bind.bind, Pure.pure,
        Env.getProperty, Go.bind_call, hid, hidv, hname, hnamev, Go.bind_assertString_str,
        Go.pure_apply]

/-- C9, amended, on the fake service holding no machine beforehand:
`CreateVM("test", 1024, 2, false, nil, gen)` returns the entity of "VM-123";
the service reports "VM-123" and "test" for it, and these are what `ID()` and
`Name()` yield. -/
theorem CreateVM_end_to_end_witness :
    (Manager.CreateVM (fakeEnv 4) fakeMgr "test" 1024 2 false [] "gen"
        (fakeStart [] 4096 none "VM-123")).1 =
      .val (some ⟨fakeMgr, .settings 0, .system 0⟩, none) ∧
    (VirtualMachine.ID (fakeEnv 4) (some ⟨fakeMgr, .settings 0, .system 0⟩)
      (Manager.CreateVM (fakeEnv 4) fakeMgr "test" 1024 2 false [] "gen"
        (fakeStart [] 4096 none "VM-123")).2).1 = .val ("VM-123", none) ∧
    (VirtualMachine.Name (fakeEnv 4) (some ⟨fakeMgr, .settings 0, .system 0⟩)
      (VirtualMachine.ID (fakeEnv 4) (some ⟨fakeMgr, .settings 0, .system 0⟩)
        (Manager.CreateVM (fakeEnv 4) fakeMgr "test" 1024 2 false [] "gen"
          (fakeStart [] 4096 none "VM-123")).2).2).1 = .val ("test", none) :=
  have h := CreateVM_end_to_end (fakeEnv 4) fakeMgr "test" 1024 2 false [] "gen"
    (fakeStart [] 4096 none "VM-123") (.cls "Msvm_VirtualSystemSettingData") .draft
    (.prim (.int32 4096)) "test" [.str "VM-123", .str "job-1"]
    (fakeDefined 4096 none) (fakeDefined 4096 none) (fakeDefined 4096 none)
    (fakeDefined 4096 none) "job-1" "VM-123" "VM-123" (.system 0) "VM-123"
    (.coll [.settings 0]) (.settings 0) (.coll [.system 0]) (.system 0)
    (by decide) (fake_define_succeeds 4096 none) rfl rfl rfl
    (fake_resolve_succeeds 4096 none) (fake_lookup_succeeds 4096 none)
  have h2 := h.2.2.2 (.prim (.str "VM-123")) (fakeDefined 4096 none) "VM-123" rfl rfl
  ⟨h.1, h2.1, h2.2 (.prim (.str "test")) (fakeDefined 4096 none) "test" rfl rfl⟩

/-- What the loop of `ListVM` yields when it ends with `return vms, nil`: the
slice keeps its length, the entries below the first index are untouched, and
the entry of each element pairs it with the first element of an associator
walk made from it in a world satisfying the invariant `I`. -/
theorem ListVM_loop_spec (E : Env σ C R L) (m : Manager C R) (I : σ → Prop)
    (hget : ∀ r w, I w → I (E.Get r "associators_" [.null, .str E.ComputerSystemClass] w).2)
    (hel : ∀ r w, I w → I (E.Elements r w).2) :
    ∀ (es : List R) (k : Nat) (vms : List (Option (VirtualMachine C R))) (s s1 : World σ C R L)
      (out : List (Option (VirtualMachine C R))),
      I s.world → k + es.length ≤ vms.length →
      Manager.ListVM.loop E m (List.enumFrom k es) vms s = (.val (some out, none), s1) →
      out.length = vms.length ∧ (∀ j, j < k → out[j]? = vms[j]?) ∧
      ∀ j (hj : j < es.length), ∃ (w w1 w2 : σ) (cs e0 : R) (o : List Any) (rest : List R),
        I w ∧
        E.Get es[j] "associators_" [.null, .str E.ComputerSystemClass] w = ((.ok cs, o), w1) ∧
        E.Elements cs w1 = (.ok (e0 :: rest), w2) ∧
        out[k + j]? = some (some ⟨m, es[j], e0⟩) := by
  intro es
  induction es with
  | nil =>
    intro k vms s s1 out _ _ h
    simp only [List.enumFrom_nil, Manager.ListVM.loop, Pure.pure, Go.pure_apply] at h
    simp only [Prod.mk.injEq, Res.val.injEq, Option.some.injEq, and_true] at h
    obtain ⟨rfl, _⟩ := h
    exact ⟨rfl, fun _ _ => rfl, fun j hj => absurd hj (Nat.not_lt_zero _)⟩
  | cons e es ih =>
    intro k vms s s1 out hI hlen h
    simp only [List.length_cons] at hlen
    simp only [List.enumFrom_cons, Manager.ListVM.loop, Bind.bind, Pure.pure, Env.get,
      Env.elements, Go.bind_call] at h
    rcases hg : E.Get e "associators_" [.null, .str E.ComputerSystemClass] s.world with
      ⟨⟨r, o⟩, w1⟩
    rw [hg] at h
    cases r with
    | error err => simp [Go.pure_apply, Wrap] at h
    | ok cs =>
      simp only [Go.bind_call] at h
      rcases he : E.Elements cs w1 with ⟨r2, w2⟩
      rw [he] at h
      cases r2 with
      | error err => simp [Go.pure_apply, Wrap] at h
      | ok elem =>
        cases elem with
        | nil => simp [Go.pure_apply, Wrap] at h
        | cons e0 rest =>
          simp only [] at h
          have hI1 : I w1 := by
            have := hget e s.world hI
            rwa [hg] at this
          have hI2 : I w2 := by
            have := hel cs w1 hI1
            rwa [he] at this
          obtain ⟨h1, h2, h3⟩ := ih (k + 1) (vms.set k (some ⟨m, e, e0⟩)) _ s1 out hI2
            (by simp only [List.length_set]; omega) h
          simp only [List.length_set] at h1
          refine ⟨h1, ?_, ?_⟩
          · intro j hj
            rw [h2 j (by omega), List.getElem?_set_ne (by omega)]
          · intro j hj
            cases j with
            | zero =>
              refine ⟨s.world, w1, w2, cs, e0, o, rest, hI, hg, he, ?_⟩
              rw [Nat.add_zero, h2 k (by omega), List.getElem?_set_self (by omega)]
              rfl
            | succ j =>
              obtain ⟨w, w1', w2', cs', e0', o', rest', hw, hg', he', hout⟩ :=
                h3 j (by simpa using hj)
              refine ⟨w, w1', w2', cs', e0', o', rest', hw, ?_, ?_, ?_⟩
              · simpa using hg'
              · exact he'
              · have : k + (j + 1) = k + 1 + j := by omega
                rw [this]
                simpa using hout

/-- What `ListVM` yields when it ends with `return vms, nil`, for a service
whose lookups keep the invariant `I` of the world. -/
theorem ListVM_spec (E : Env σ C R L) (m : Manager C R) (I : σ → Prop)
    (hq : ∀ w, I w → I (E.Gwmi m.con E.VirtualSystemSettingDataClass [] (listVMQuery E) w).2)
    (hget : ∀ r w, I w → I (E.Get r "associators_" [.null, .str E.ComputerSystemClass] w).2)
    (hel : ∀ r w, I w → I (E.Elements r w).2)
    (s : World σ C R L) (vms : List (Option (VirtualMachine C R))) (hI : I s.world)
    (hsucc : (Manager.ListVM E m s).1 = .val (some vms, none)) :
    ∃ (result : R) (elements : List R) (w1 w2 : σ),
      E.Gwmi m.con E.VirtualSystemSettingDataClass [] (listVMQuery E) s.world
        = (.ok result, w1) ∧
      E.Elements result w1 = (.ok elements, w2) ∧
      vms.length = elements.length ∧
      ∀ i (hi : i < elements.length), ∃ (w w3 w4 : σ) (cs e0 : R) (o : List Any) (rest : List R),
        I w ∧
        E.Get elements[i] "associators_" [.null, .str E.ComputerSystemClass] w
          = ((.ok cs, o), w3) ∧
        E.Elements cs w3 = (.ok (e0 :: rest), w4) ∧
        vms[i]? = some (some ⟨m, elements[i], e0⟩) := by
  simp only [Manager.ListVM, Bind.bind, Pure.pure, Env.gwmi, Env.elements, Go.bind_call]
    at hsucc
  rcases hg : E.Gwmi m.con E.VirtualSystemSettingDataClass [] (listVMQuery E) s.world with
    ⟨r, w1⟩
  have hI1 : I w1 := by
    have := hq s.world hI
    rwa [hg] at this
  simp only [listVMQuery] at hg
  rw [hg] at hsucc
  cases r with
  | error err => simp [Go.pure_apply, Wrap] at hsucc
  | ok result =>
    simp only [Go.bind_call] at hsucc
    rcases he : E.Elements result w1 with ⟨r2, w2⟩
    have hI2 : I w2 := by
      have := hel result w1 hI1
      rwa [he] at this
    rw [he] at hsucc
    cases r2 with
    | error err => simp [Go.pure_apply, Wrap] at hsucc
    | ok elements =>
      simp only [List.enum] at hsucc
      obtain ⟨h1, _, h3⟩ := ListVM_loop_spec E m I hget hel elements 0
        (List.replicate elements.length none) _ _ vms hI2 (by simp)
        (Prod.ext hsucc rfl)
      refine ⟨result, elements, w1, w2, by simp only [listVMQuery], he, by simpa using h1, ?_⟩
      intro i hi
      obtain ⟨w, w3, w4, cs, e0, o, rest, hw, hg', he', hout⟩ := h3 i hi
      exact ⟨w, w3, w4, cs, e0, o, rest, hw, hg', he', by simpa using hout⟩

theorem readOnly_pure {α : Type} (a : α) : ReadOnly (Go.pure a : Go (World σ C R L) α) :=
  fun _ _ _ => ⟨rfl, rfl⟩

theorem readOnly_call {α : Type} (c : Call C R L) (f : σ → α × σ) (hf : ∀ w, (f w).2 = w) :
    ReadOnly (call c f : Go (World σ C R L) α) :=
  fun w _ _ => ⟨rfl, hf w⟩

theorem readOnly_bind {α β : Type} {m : Go (World σ C R L) α}
    {f : α → Go (World σ C R L) β} (hm : ReadOnly m) (hf : ∀ a, ReadOnly (f a)) :
    ReadOnly (Go.bind m f) := by
  intro w tr1 tr2
  obtain ⟨h1, h2⟩ := hm w tr1 tr2
  have h3 := (hm w tr2 tr2).2
  simp only [Go.bind]
  rcases hm1 : m ⟨w, tr1⟩ with ⟨r1, ⟨w1, t1⟩⟩
  rcases hm2 : m ⟨w, tr2⟩ with ⟨r2, ⟨w2, t2⟩⟩
  rw [hm1] at h1 h2
  rw [hm2] at h1 h3
  simp only at h1 h2 h3
  subst h1 h2 h3
  cases r1 with
  | val a => exact hf a _ t1 t2
  | panic e => exact ⟨rfl, rfl⟩

/-- On a service whose associator walks and enumerations only read the world,
so does the loop of `ListVM`. -/
theorem ListVM_loop_readOnly (E : Env σ C R L) (m : Manager C R)
    (hget : ∀ r w, (E.Get r "associators_" [.null, .str E.ComputerSystemClass] w).2 = w)
    (hel : ∀ r w, (E.Elements r w).2 = w) :
    ∀ (ps : List (Nat × R)) (vms : List (Option (VirtualMachine C R))),
      ReadOnly (Manager.ListVM.loop E m ps vms) := by
  intro ps
  induction ps with
  | nil => intro vms; exact readOnly_pure _
  | cons p ps ih =>
    intro vms
    obtain ⟨idx, val⟩ := p
    simp only [Manager.ListVM.loop, Bind.bind, Pure.pure, Env.get, Env.elements]
    refine readOnly_bind (readOnly_call _ _ (hget val)) fun a => ?_
    split
    · exact readOnly_pure _
    · refine readOnly_bind (readOnly_call _ _ (hel _)) fun b => ?_
      split
      · exact readOnly_pure _
      · exact readOnly_pure _
      · exact ih _

/-- On a service whose lookups only read the world, so does `ListVM`. -/
theorem ListVM_readOnly (E : Env σ C R L) (m : Manager C R)
    (hq : ∀ w, (E.Gwmi m.con E.VirtualSystemSettingDataClass [] (listVMQuery E) w).2 = w)
    (hget : ∀ r w, (E.Get r "associators_" [.null, .str E.ComputerSystemClass] w).2 = w)
    (hel : ∀ r w, (E.Elements r w).2 = w) :
    ReadOnly (Manager.ListVM E m) := by
  simp only [listVMQuery] at hq
  simp only [Manager.ListVM, Bind.bind, Pure.pure, Env.gwmi, Env.elements]
  refine readOnly_bind (readOnly_call _ _ hq) fun a => ?_
  split
  · exact readOnly_pure _
  · refine readOnly_bind (readOnly_call _ _ (hel _)) fun b => ?_
    split
    · exact readOnly_pure _
    · exact ListVM_loop_readOnly E m hget hel _ _

/-- The fake service's `Get` only reads the world on an associator walk. -/
theorem fake_get_readOnly (r : FakeRef) (ps : List Any) (w : FakeWorld) :
    (fakeGet r "associators_" ps w).2 = w := by
  unfold fakeGet
  split
  · simp only [if_true]
    split <;> rfl
  · rfl
  · rfl
  · rfl

/-- The fake service's `Elements` only reads the world. -/
theorem fake_elements_readOnly (r : FakeRef) (w : FakeWorld) :
    ((fakeEnv 4).Elements r w).2 = w := by
  cases r <;> rfl

/-- On a service whose walks only read the world `w`, when the walk from every
remaining element yields a computer system, the loop of `ListVM` runs to its
`return vms, nil`. -/
theorem ListVM_loop_returns_slice (E : Env σ C R L) (m : Manager C R) (w : σ) :
    ∀ (es : List R) (k : Nat) (vms : List (Option (VirtualMachine C R)))
      (tr : List (Call C R L)),
      (∀ e ∈ es, ∃ (cs elem0 : R) (o : List Any) (rest : List R),
        E.Get e "associators_" [.null, .str E.ComputerSystemClass] w = ((.ok cs, o), w) ∧
        E.Elements cs w = (.ok (elem0 :: rest), w)) →
      ∃ out tr1, Manager.ListVM.loop E m (List.enumFrom k es) vms ⟨w, tr⟩ =
        (.val (some out, none), ⟨w, tr1⟩) := by
  intro es
  induction es with
  | nil =>
    intro k vms tr _
    exact ⟨vms, tr, rfl⟩
  | cons e es ih =>
    intro k vms tr h
    obtain ⟨cs, elem0, o, rest, hg, he⟩ := h e (List.mem_cons_self _ _)
    obtain ⟨out, tr1, hout⟩ := ih (k + 1) (vms.set k (some ⟨m, e, elem0⟩))
      (tr ++ [.Get e "associators_" [.null, .str E.ComputerSystemClass]] ++ [.Elements cs])
      (fun e1 h1 => h e1 (List.mem_cons_of_mem _ h1))
    refine ⟨out, tr1, ?_⟩
    simp only [List.enumFrom_cons, Manager.ListVM.loop, Bind.bind, Pure.pure, Env.get,
      Env.elements, Go.bind_call, hg, he]
    exact hout

/-- On a service whose lookups only read the world, when the query of `ListVM`
succeeds and the walk from every element it yields finds a computer system,
`ListVM` returns a non-nil slice and a nil error. -/
theorem ListVM_returns_slice (E : Env σ C R L) (m : Manager C R) (s : World σ C R L)
    (result : R) (elements : List R)
    (hq : E.Gwmi m.con E.VirtualSystemSettingDataClass [] (listVMQuery E) s.world
      = (.ok result, s.world))
    (hel : E.Elements result s.world = (.ok elements, s.world))
    (hwalk : ∀ e ∈ elements, ∃ (cs elem0 : R) (o : List Any) (rest : List R),
      E.Get e "associators_" [.null, .str E.ComputerSystemClass] s.world
        = ((.ok cs, o), s.world) ∧
      E.Elements cs s.world = (.ok (elem0 :: rest), s.world)) :
    ∃ vms, (Manager.ListVM E m s).1 = .val (some vms, none) := by
  simp only [listVMQuery] at hq
  obtain ⟨out, tr1, hout⟩ := ListVM_loop_returns_slice E m s.world elements 0
    (List.replicate elements.length none)
    (s.trace ++ [.Gwmi m.con E.VirtualSystemSettingDataClass [] (listVMQuery E)]
      ++ [.Elements result]) hwalk
  refine ⟨out, ?_⟩
  simp only [listVMQuery] at hout
  simp only [Manager.ListVM, Bind.bind, Pure.pure, Env.gwmi, Env.elements, Go.bind_call, hq,
    hel, List.enum, hout]

/-- Whenever `ListVM` ends with `return vms, nil`, the slice it returns has
the length of the element list of the settings-data query, and its i-th entry
is the machine pairing the i-th query element with the first element of an
associator walk made from that element.  On a service whose lookups only read
the world, that walk is the one made in the world `ListVM` was called in, and a
second call of `ListVM` returns the same slice, in the same order. -/
theorem ListVM_slice_preserves_order (E : Env σ C R L) (m : Manager C R) (s : World σ C R L)
    (vms : List (Option (VirtualMachine C R)))
    (hsucc : (Manager.ListVM E m s).1 = .val (some vms, none)) :
    (∃ (result : R) (elements : List R) (w1 w2 : σ),
      E.Gwmi m.con E.VirtualSystemSettingDataClass [] (listVMQuery E) s.world
        = (.ok result, w1) ∧
      E.Elements result w1 = (.ok elements, w2) ∧
      vms.length = elements.length ∧
      ∀ i (hi : i < elements.length), ∃ (w w3 w4 : σ) (cs e0 : R) (o : List Any) (rest : List R),
        E.Get elements[i] "associators_" [.null, .str E.ComputerSystemClass] w
          = ((.ok cs, o), w3) ∧
        E.Elements cs w3 = (.ok (e0 :: rest), w4) ∧
        vms[i]? = some (some ⟨m, elements[i], e0⟩)) ∧
    ((∀ w, (E.Gwmi m.con E.VirtualSystemSettingDataClass [] (listVMQuery E) w).2 = w) →
      (∀ r w, (E.Get r "associators_" [.null, .str E.ComputerSystemClass] w).2 = w) →
      (∀ r w, (E.Elements r w).2 = w) →
      (∃ (result : R) (elements : List R),
        (E.Gwmi m.con E.VirtualSystemSettingDataClass [] (listVMQuery E) s.world).1
          = .ok result ∧
        (E.Elements result s.world).1 = .ok elements ∧
        vms.length = elements.length ∧
        ∀ i (hi : i < elements.length), ∃ (cs e0 : R) (rest : List R),
          (E.Get elements[i] "associators_" [.null, .str E.ComputerSystemClass] s.world).1.1
            = .ok cs ∧
          (E.Elements cs s.world).1 = .ok (e0 :: rest) ∧
          vms[i]? = some (some ⟨m, elements[i], e0⟩)) ∧
      (Manager.ListVM E m s).2.world = s.world ∧
      (Manager.ListVM E m (Manager.ListVM E m s).2).1 = .val (some vms, none)) := by
  constructor
  · obtain ⟨result, elements, w1, w2, h1, h2, h3, h4⟩ :=
      ListVM_spec E m (fun _ => True) (fun _ _ => trivial) (fun _ _ _ => trivial)
        (fun _ _ _ => trivial) s vms trivial hsucc
    refine ⟨result, elements, w1, w2, h1, h2, h3, fun i hi => ?_⟩
    obtain ⟨w, w3, w4, cs, e0, o, rest, _, hg, he, hv⟩ := h4 i hi
    exact ⟨w, w3, w4, cs, e0, o, rest, hg, he, hv⟩
  · intro hq hget hel
    obtain ⟨result, elements, w1, w2, h1, h2, h3, h4⟩ :=
      ListVM_spec E m (fun w => w = s.world) (fun w hw => by rw [hq w, hw])
        (fun r w hw => by rw [hget r w, hw]) (fun r w hw => by rw [hel r w, hw])
        s vms rfl hsucc
    have e1 : w1 = s.world := by
      have := hq s.world
      rw [h1] at this
      exact this
    subst e1
    refine ⟨⟨result, elements, by rw [h1], by rw [h2], h3, fun i hi => ?_⟩, ?_, ?_⟩
    · obtain ⟨w, w3, w4, cs, e0, o, rest, hw, hg, he, hv⟩ := h4 i hi
      subst hw
      have e3 : w3 = s.world := by
        have := hget elements[i] s.world
        rw [hg] at this
        exact this
      subst e3
      exact ⟨cs, e0, rest, by rw [hg], by rw [he], hv⟩
    · exact ((ListVM_readOnly E m hq hget hel) s.world s.trace s.trace).2
    · have hro := ListVM_readOnly E m hq hget hel
      have hw : (Manager.ListVM E m s).2 = ⟨s.world, (Manager.ListVM E m s).2.trace⟩ := by
        have := (hro s.world s.trace s.trace).2
        cases hs : Manager.ListVM E m s with
        | mk r s1 =>
          cases s1 with
          | mk w t =>
            have hh : (Manager.ListVM E m ⟨s.world, s.trace⟩).2.world = s.world := this
            have e : (⟨s.world, s.trace⟩ : World σ C R L) = s := rfl
            rw [e, hs] at hh
            simp only at hh
            simp only [hh]
      rw [hw, (hro s.world (Manager.ListVM E m s).2.trace s.trace).1]
      exact hsucc

/-- On the fake service holding two machines with a computer system each,
`ListVM` returns them in query order, and a second call returns the same
slice. -/
theorem ListVM_preserves_order_on_fake :
    (Manager.ListVM (fakeEnv 4) fakeMgr
        (fakeStart [⟨"VM-2", "two", 1⟩, ⟨"VM-1", "one", 1⟩] 0 none "VM-123")).1 =
      .val (some [some ⟨fakeMgr, .settings 0, .system 0⟩,
        some ⟨fakeMgr, .settings 1, .system 1⟩], none) ∧
    (Manager.ListVM (fakeEnv 4) fakeMgr (Manager.ListVM (fakeEnv 4) fakeMgr
        (fakeStart [⟨"VM-2", "two", 1⟩, ⟨"VM-1", "one", 1⟩] 0 none "VM-123")).2).1 =
      .val (some [some ⟨fakeMgr, .settings 0, .system 0⟩,
        some ⟨fakeMgr, .settings 1, .system 1⟩], none) :=
  ⟨rfl, ((ListVM_slice_preserves_order (fakeEnv 4) fakeMgr
    (fakeStart [⟨"VM-2", "two", 1⟩, ⟨"VM-1", "one", 1⟩] 0 none "VM-123")
    [some ⟨fakeMgr, .settings 0, .system 0⟩, some ⟨fakeMgr, .settings 1, .system 1⟩] rfl).2
    (fun _ => rfl) (fun r w => fake_get_readOnly r _ w) fake_elements_readOnly).2.2⟩

/-- C6: when the settings-data query of `ListVM` yields at least two elements,
the associator walk from the first yields a computer system and the walk from
the second succeeds with zero computer systems, `ListVM` returns a nil error
together with a nil slice: the call reports success, and the returned list has
length 0, not the length of the element list of the query. -/
theorem ListVM_nil_error_drops_elements (E : Env σ C R L) (m : Manager C R)
    (s : World σ C R L) (result val1 val2 cs1 cs2 elem0 : R) (rest elems : List R)
    (w1 w2 w3 w4 w5 w6 : σ) (o1 o2 : List Any)
    (hq : E.Gwmi m.con E.VirtualSystemSettingDataClass [] (listVMQuery E) s.world
      = (.ok result, w1))
    (hel : E.Elements result w1 = (.ok (val1 :: val2 :: rest), w2))
    (hg1 : E.Get val1 "associators_" [.null, .str E.ComputerSystemClass] w2
      = ((.ok cs1, o1), w3))
    (he1 : E.Elements cs1 w3 = (.ok (elem0 :: elems), w4))
    (hg2 : E.Get val2 "associators_" [.null, .str E.ComputerSystemClass] w4
      = ((.ok cs2, o2), w5))
    (he2 : E.Elements cs2 w5 = (.ok [], w6)) :
    (Manager.ListVM E m s).1 = .val (none, none) ∧
    (∀ vms, (Manager.ListVM E m s).1 = .val (vms, none) →
      (vms.getD []).length = 0 ∧ (vms.getD []).length ≠ (val1 :: val2 :: rest).length) := by
  simp only [listVMQuery] at hq
  have hrun : (Manager.ListVM E m s).1 = .val (none, none) := by
    simp only [Manager.ListVM, Manager.ListVM.loop, List.enum, List.enumFrom_cons, Bind.bind,
      Pure.pure, Env.gwmi, Env.get, Env.elements, Go.bind_call, Go.pure_apply, hq, hel, hg1,
      he1, hg2, he2, Wrap]
  refine ⟨hrun, ?_⟩
  intro vms h
  rw [hrun] at h
  simp only [Res.val.injEq, Prod.mk.injEq, and_true] at h
  subst h
  simp

/-- C6 on the fake service holding "VM-2" with a computer system and "VM-1"
with none: the query yields two elements and `ListVM` returns a nil slice and
a nil error. -/
theorem ListVM_nil_error_drops_elements_witness :
    ((fakeEnv 4).Elements (.coll [.settings 0, .settings 1])
        (fakeStart [⟨"VM-2", "two", 1⟩, ⟨"VM-1", "orphan", 0⟩] 0 none "VM-123").world).1 =
      .ok [.settings 0, .settings 1] ∧
    (Manager.ListVM (fakeEnv 4) fakeMgr
        (fakeStart [⟨"VM-2", "two", 1⟩, ⟨"VM-1", "orphan", 0⟩] 0 none "VM-123")).1 =
      .val (none, none) :=
  ⟨rfl, (ListVM_nil_error_drops_elements (fakeEnv 4) fakeMgr
    (fakeStart [⟨"VM-2", "two", 1⟩, ⟨"VM-1", "orphan", 0⟩] 0 none "VM-123")
    (.coll [.settings 0, .settings 1]) (.settings 0) (.settings 1) (.coll [.system 0])
    (.coll []) (.system 0) [] []
    (fakeStart [⟨"VM-2", "two", 1⟩, ⟨"VM-1", "orphan", 0⟩] 0 none "VM-123").world
    (fakeStart [⟨"VM-2", "two", 1⟩, ⟨"VM-1", "orphan", 0⟩] 0 none "VM-123").world
    (fakeStart [⟨"VM-2", "two", 1⟩, ⟨"VM-1", "orphan", 0⟩] 0 none "VM-123").world
    (fakeStart [⟨"VM-2", "two", 1⟩, ⟨"VM-1", "orphan", 0⟩] 0 none "VM-123").world
    (fakeStart [⟨"VM-2", "two", 1⟩, ⟨"VM-1", "orphan", 0⟩] 0 none "VM-123").world
    (fakeStart [⟨"VM-2", "two", 1⟩, ⟨"VM-1", "orphan", 0⟩] 0 none "VM-123").world [] []
    rfl rfl rfl rfl rfl rfl).1⟩

/-- C8: `SetNumCPUs(cpus)` returns an error, the capacity error, if and only if
`cpus` is greater than the host's logical processor count; a count equal to the
host's is accepted, and so is every zero or negative count. -/
theorem SetNumCPUs_error_iff (E : Env σ C R L) (v : Option (VirtualMachine C R)) (cpus : Int) :
    (VirtualMachine.SetNumCPUs E v cpus ≠ none ↔ cpus > (E.NumCPU : Int)) ∧
    (VirtualMachine.SetNumCPUs E v cpus ≠ none →
      VirtualMachine.SetNumCPUs E v cpus =
        some (.errorf "Number of cpus exceeded available host resources")) ∧
    VirtualMachine.SetNumCPUs E v (E.NumCPU : Int) = none ∧
    (cpus ≤ 0 → VirtualMachine.SetNumCPUs E v cpus = none) := by
  unfold VirtualMachine.SetNumCPUs
  refine ⟨?_, ?_, ?_, ?_⟩
  · by_cases h : (E.NumCPU : Int) < cpus <;> simp [h]
  · by_cases h : (E.NumCPU : Int) < cpus <;> simp [h]
  · simp
  · intro h
    have h0 : (0 : Int) ≤ (E.NumCPU : Int) := Int.ofNat_nonneg _
    have : ¬ ((E.NumCPU : Int) < cpus) := by omega
    simp [this]

/-- C8 at a host with four processors: five are refused, and minus three are
accepted. -/
theorem SetNumCPUs_error_iff_witness :
    ((5 : Int) > ((fakeEnv 4).NumCPU : Int) ∧
      VirtualMachine.SetNumCPUs (fakeEnv 4) (none : Option (VirtualMachine Unit FakeRef)) 5
        ≠ none) ∧
    ((-3 : Int) ≤ 0 ∧
      VirtualMachine.SetNumCPUs (fakeEnv 4) (none : Option (VirtualMachine Unit FakeRef)) (-3)
        = none) :=
  ⟨⟨by decide, (SetNumCPUs_error_iff (fakeEnv 4) none 5).1.2 (by decide)⟩,
   ⟨by decide, (SetNumCPUs_error_iff (fakeEnv 4) none (-3)).2.2.2 (by decide)⟩⟩

/-- C1: when the settings-data query of `GetVM` succeeds, element 0 of its
result is fetched, and the associator walk from that element succeeds with
zero computer systems, `GetVM` returns a nil machine together with a nil
error: the error it wraps on that branch is nil. -/
theorem GetVM_zero_systems_returns_nil_nil (E : Env σ C R L) (m : Manager C R)
    (instanceID : String) (s : World σ C R L) (result vssd cs : R) (w1 w2 w3 w4 : σ)
    (o : List Any)
    (hq : E.Gwmi m.con E.VirtualSystemSettingDataClass [] (getVMQuery E instanceID) s.world
      = (.ok result, w1))
    (hi : E.ItemAtIndex result 0 w1 = (.ok vssd, w2))
    (hg : E.Get vssd "associators_" [.null, .str E.ComputerSystemClass] w2 = ((.ok cs, o), w3))
    (he : E.Elements cs w3 = (.ok [], w4)) :
    (Manager.GetVM E m instanceID s).1 = .val (none, none) ∧
    callsOf (Manager.GetVM E m instanceID) s =
      [.Gwmi m.con E.VirtualSystemSettingDataClass [] (getVMQuery E instanceID),
       .ItemAtIndex result 0,
       .Get vssd "associators_" [.null, .str E.ComputerSystemClass],
       .Elements cs] := by
  have hrun : Manager.GetVM E m instanceID s =
      (.val (none, none),
        ⟨w4, s.trace ++ [.Gwmi m.con E.VirtualSystemSettingDataClass [] (getVMQuery E instanceID),
          .ItemAtIndex result 0, .Get vssd "associators_" [.null, .str E.ComputerSystemClass],
          .Elements cs]⟩) := by
    simp only [getVMQuery] at hq
    simp only [Manager.GetVM, Bind.bind, Pure.pure, Env.gwmi, Env.itemAtIndex, Env.get,
      Env.elements, Go.bind_call, Go.pure_apply, hq, hi, hg, he, Wrap, getVMQuery,
      List.append_assoc, List.cons_append, List.nil_append]
  exact ⟨by rw [hrun], by simp [callsOf, hrun]⟩

/-- C1 on the fake service holding the machine "VM-1" with no computer system:
`GetVM("VM-1")` returns a nil machine and a nil error. -/
theorem GetVM_zero_systems_returns_nil_nil_witness :
    (Manager.GetVM (fakeEnv 4) fakeMgr "VM-1"
        (fakeStart [⟨"VM-1", "orphan", 0⟩] 0 none "VM-123")).1 = .val (none, none) :=
  (GetVM_zero_systems_returns_nil_nil (fakeEnv 4) fakeMgr "VM-1"
    (fakeStart [⟨"VM-1", "orphan", 0⟩] 0 none "VM-123")
    (.coll [.settings 0]) (.settings 0) (.coll [])
    (fakeStart [⟨"VM-1", "orphan", 0⟩] 0 none "VM-123").world
    (fakeStart [⟨"VM-1", "orphan", 0⟩] 0 none "VM-123").world
    (fakeStart [⟨"VM-1", "orphan", 0⟩] 0 none "VM-123").world
    (fakeStart [⟨"VM-1", "orphan", 0⟩] 0 none "VM-123").world [] rfl rfl rfl rfl).1

/-- C7: when the settings-data query of `ListVM` succeeds and the associator
walk from its first element succeeds with zero computer systems, `ListVM`
returns a nil slice together with a nil error: the error it wraps on that
branch is nil. -/
theorem ListVM_zero_systems_returns_nil_nil (E : Env σ C R L) (m : Manager C R)
    (s : World σ C R L) (result val cs : R) (rest : List R) (w1 w2 w3 w4 : σ) (o : List Any)
    (hq : E.Gwmi m.con E.VirtualSystemSettingDataClass [] (listVMQuery E) s.world
      = (.ok result, w1))
    (hel : E.Elements result w1 = (.ok (val :: rest), w2))
    (hg : E.Get val "associators_" [.null, .str E.ComputerSystemClass] w2 = ((.ok cs, o), w3))
    (he : E.Elements cs w3 = (.ok [], w4)) :
    (Manager.ListVM E m s).1 = .val (none, none) := by
  simp only [listVMQuery] at hq
  simp only [Manager.ListVM, Manager.ListVM.loop, List.enum, List.enumFrom_cons, Bind.bind,
    Pure.pure, Env.gwmi, Env.get, Env.elements, Go.bind_call, Go.pure_apply, hq, hel, hg, he,
    Wrap]

/-- C7 on the fake service holding "VM-1" with no computer system and "VM-2"
with one: `ListVM` returns a nil slice and a nil error. -/
theorem ListVM_zero_systems_returns_nil_nil_witness :
    (Manager.ListVM (fakeEnv 4) fakeMgr
        (fakeStart [⟨"VM-1", "orphan", 0⟩, ⟨"VM-2", "two", 1⟩] 0 none "VM-123")).1 =
      .val (none, none) :=
  ListVM_zero_systems_returns_nil_nil (fakeEnv 4) fakeMgr
    (fakeStart [⟨"VM-1", "orphan", 0⟩, ⟨"VM-2", "two", 1⟩] 0 none "VM-123")
    (.coll [.settings 0, .settings 1]) (.settings 0) (.coll []) [.settings 1]
    (fakeStart [⟨"VM-1", "orphan", 0⟩, ⟨"VM-2", "two", 1⟩] 0 none "VM-123").world
    (fakeStart [⟨"VM-1", "orphan", 0⟩, ⟨"VM-2", "two", 1⟩] 0 none "VM-123").world
    (fakeStart [⟨"VM-1", "orphan", 0⟩, ⟨"VM-2", "two", 1⟩] 0 none "VM-123").world
    (fakeStart [⟨"VM-1", "orphan", 0⟩, ⟨"VM-2", "two", 1⟩] 0 none "VM-123").world [] rfl rfl rfl rfl

/-- C2: when the settings-data query of `GetVM` succeeds and fetching element 0
of its result fails with `err`, `GetVM` returns no machine and the non-nil
error `err` wrapped with "fetching element" (so its cause is that of `err`),
and the only calls it makes are the query and the fetch: no associator walk is
performed. -/
theorem GetVM_not_found (E : Env σ C R L) (m : Manager C R) (instanceID : String)
    (s : World σ C R L) (result : R) (w1 w2 : σ) (err : Error)
    (hq : E.Gwmi m.con E.VirtualSystemSettingDataClass [] (getVMQuery E instanceID) s.world
      = (.ok result, w1))
    (hi : E.ItemAtIndex result 0 w1 = (.error err, w2)) :
    (Manager.GetVM E m instanceID s).1 = .val (none, some (.withMessage err "fetching element")) ∧
    Cause (.withMessage err "fetching element") = Cause err ∧
    (Manager.GetVM E m instanceID s).2.world = w2 ∧
    callsOf (Manager.GetVM E m instanceID) s =
      [.Gwmi m.con E.VirtualSystemSettingDataClass [] (getVMQuery E instanceID),
       .ItemAtIndex result 0] ∧
    (∀ r p ps, Call.Get r p ps ∉ callsOf (Manager.GetVM E m instanceID) s) ∧
    (∀ r, Call.Elements r ∉ callsOf (Manager.GetVM E m instanceID) s) := by
  have hrun : Manager.GetVM E m instanceID s =
      (.val (none, some (.withMessage err "fetching element")),
        ⟨w2, s.trace ++ [.Gwmi m.con E.VirtualSystemSettingDataClass [] (getVMQuery E instanceID),
          .ItemAtIndex result 0]⟩) := by
    simp only [getVMQuery] at hq
    simp [Manager.GetVM, Bind.bind, Go.bind, Pure.pure, Go.pure, Env.gwmi, Env.itemAtIndex,
      call, hq, hi, Wrap, getVMQuery]
  have hcalls : callsOf (Manager.GetVM E m instanceID) s =
      [.Gwmi m.con E.VirtualSystemSettingDataClass [] (getVMQuery E instanceID),
       .ItemAtIndex result 0] := by
    simp [callsOf, hrun]
  refine ⟨by rw [hrun], rfl, by rw [hrun], hcalls, ?_, ?_⟩
  · intro r p ps
    simp [hcalls]
  · intro r
    simp [hcalls]

/-- C2 on the fake service holding no machine: `GetVM("VM-9")` reports the
failed fetch and walks no associator. -/
theorem GetVM_not_found_witness :
    (Manager.GetVM (fakeEnv 4) fakeMgr "VM-9" (fakeStart [] 0 none "VM-123")).1 =
      .val (none, some (.withMessage (.errorf "index out of range") "fetching element")) ∧
    callsOf (Manager.GetVM (fakeEnv 4) fakeMgr "VM-9") (fakeStart [] 0 none "VM-123") =
      [.Gwmi () "Msvm_VirtualSystemSettingData" [] (getVMQuery (fakeEnv 4) "VM-9"),
       .ItemAtIndex (.coll []) 0] :=
  have h := GetVM_not_found (fakeEnv 4) fakeMgr "VM-9" (fakeStart [] 0 none "VM-123")
    (.coll []) (fakeStart [] 0 none "VM-123").world (fakeStart [] 0 none "VM-123").world
    (.errorf "index out of range") rfl rfl
  ⟨h.1, h.2.2.2.1⟩

end Theorems

end GoWmi
